import Mathlib

/-
Verification development for the order-status reconciliation engine
(src/order_status_handler.py).  The Python module is shallowly embedded:
the loosely-typed notification payload becomes a generic tree value
`PyVal`, the mutable registries of `OrderStatusHandler` become an explicit
`HandlerState`, and the fallible persistence gateway (db_manager, external
to the repository) becomes an oracle `Nat → Except Unit α` giving the
outcome of each retry attempt.  Floating point timestamps are modelled as
natural-number seconds; `time.sleep(0.1*(attempt+1))` is recorded as the
integer number of deciseconds slept.
-/

namespace XianyuOrder

/-- Generic Python-like value tree for the loosely-typed notification
payloads (dict keys are restricted to strings, as in the observed
payloads; JSON numeric literals are modelled as integers and fractional
literals are treated as unparsable). -/
inductive PyVal where
  | pnone : PyVal
  | pbool : Bool → PyVal
  | pint : Int → PyVal
  | pstr : String → PyVal
  | plist : List PyVal → PyVal
  | pdict : List (String × PyVal) → PyVal
deriving Inhabited

/-- Python truthiness (`if x:`). -/
def pyTruthy : PyVal → Bool
  | .pnone => false
  | .pbool b => b
  | .pint n => n != 0
  | .pstr s => !s.isEmpty
  | .plist l => !l.isEmpty
  | .pdict l => !l.isEmpty

/-- `d.get(k)` on an association list modelling a Python dict (first hit,
keys are unique in the states the engine builds). -/
def dictLookup {α : Type} : List (String × α) → String → Option α
  | [], _ => none
  | (k2, v) :: rest, k => if k2 == k then some v else dictLookup rest k

/-- `d[k] = v`: overwrite in place if the key exists (Python dicts keep the
insertion position), else append. -/
def dictSet {α : Type} (items : List (String × α)) (k : String) (v : α) :
    List (String × α) :=
  if items.any (fun p => p.1 == k) then
    items.map (fun p => if p.1 == k then (k, v) else p)
  else items ++ [(k, v)]

/-- `d.pop(k, None)`: drop the first binding of `k`. -/
def dictPop {α : Type} : List (String × α) → String → List (String × α)
  | [], _ => []
  | (k2, v) :: rest, k => if k2 == k then rest else (k2, v) :: dictPop rest k

/-- Comma-join used by the Python `repr` of containers. -/
def commaJoin : List String → String
  | [] => ""
  | [s] => s
  | s :: rest => s ++ ", " ++ commaJoin rest

mutual
/-- Python `repr` of a value (string escaping edge cases are out of model:
the payload strings the engine sees contain no quotes). -/
def pyRepr : PyVal → String
  | .pnone => "None"
  | .pbool true => "True"
  | .pbool false => "False"
  | .pint n => toString n
  | .pstr s => "'" ++ s ++ "'"
  | .plist items => "[" ++ commaJoin (pyReprL items) ++ "]"
  | .pdict items => "\x7b" ++ commaJoin (pyReprD items) ++ "\x7d"

def pyReprL : List PyVal → List String
  | [] => []
  | v :: rest => pyRepr v :: pyReprL rest

def pyReprD : List (String × PyVal) → List String
  | [] => []
  | (k, v) :: rest => ("'" ++ k ++ "': " ++ pyRepr v) :: pyReprD rest
end

/-- Python `str(x)`: the string itself for strings, `repr` recursively for
containers. -/
def pyStr : PyVal → String
  | .pstr s => s
  | v => pyRepr v

/-- Characters of Python `str.strip()` / regex `\s`. -/
def pyWsChars : List Char := [' ', '\t', '\n', '\r', Char.ofNat 11, Char.ofNat 12]

def isPyWs (c : Char) : Bool := pyWsChars.contains c

/-- Python `s.strip(chars)`: remove leading and trailing characters drawn
from `cs`. -/
def stripChars (s : String) (cs : List Char) : String :=
  let l := s.data.dropWhile (fun c => cs.contains c)
  String.mk ((l.reverse.dropWhile (fun c => cs.contains c)).reverse)

/-- Python `s.strip()` (whitespace). -/
def pyStrip (s : String) : String := stripChars s pyWsChars

/-- Whether `pat` is a leading subword of `l`. -/
def leadsWith : List Char → List Char → Bool
  | [], _ => true
  | _ :: _, [] => false
  | a :: as, b :: bs => a == b && leadsWith as bs

/-- Substring test on character lists (Python `pat in s`). -/
def containsSub : List Char → List Char → Bool
  | [], pat => pat.isEmpty
  | hay@(_ :: t), pat => leadsWith pat hay || containsSub t pat

/-- Python `pat in s` on strings. -/
def strContains (s pat : String) : Bool := containsSub s.data pat.data

/-- Python `any(kw in s for kw in kws)`. -/
def containsAny (s : String) (kws : List String) : Bool :=
  kws.any (fun kw => strContains s kw)

/-- Drop the literal `lit` from the head of `l`, or fail. -/
def dropLit : List Char → List Char → Option (List Char)
  | [], l => some l
  | _ :: _, [] => none
  | a :: as, b :: bs => if a == b then dropLit as bs else none

/-- `s.endswith(pat)` on character lists. -/
def endsWithCL (l pat : List Char) : Bool := leadsWith pat.reverse l.reverse

/- ===================== json.loads ===================== -/

def skipWs (l : List Char) : List Char :=
  l.dropWhile (fun c => c == ' ' || c == '\t' || c == '\n' || c == '\r')

def hexVal (c : Char) : Option Nat :=
  if '0' ≤ c ∧ c ≤ '9' then some (c.toNat - '0'.toNat)
  else if 'a' ≤ c ∧ c ≤ 'f' then some (c.toNat - 'a'.toNat + 10)
  else if 'A' ≤ c ∧ c ≤ 'F' then some (c.toNat - 'A'.toNat + 10)
  else none

/-- Body of a JSON string after the opening quote; returns the decoded
characters and the input past the closing quote. -/
def parseStrBody : List Char → Option (List Char × List Char)
  | [] => none
  | '"' :: rest => some ([], rest)
  | '\\' :: 'u' :: a :: b :: c :: d :: rest => do
    let ha ← hexVal a
    let hb ← hexVal b
    let hc ← hexVal c
    let hd ← hexVal d
    let (s, r) ← parseStrBody rest
    pure (Char.ofNat (((ha * 16 + hb) * 16 + hc) * 16 + hd) :: s, r)
  | '\\' :: e :: rest => do
    let c ← match e with
      | '"' => some '"'
      | '\\' => some '\\'
      | '/' => some '/'
      | 'b' => some (Char.ofNat 8)
      | 'f' => some (Char.ofNat 12)
      | 'n' => some '\n'
      | 'r' => some '\r'
      | 't' => some '\t'
      | _ => none
    let (s, r) ← parseStrBody rest
    pure (c :: s, r)
  | c :: rest => do
    let (s, r) ← parseStrBody rest
    pure (c :: s, r)

/-- Integer literal (fractional and exponent forms are treated as
unparsable, see the model note on floats). -/
def parseIntLit (l : List Char) : Option (Int × List Char) :=
  let (neg, l1) := match l with
    | '-' :: t => (true, t)
    | _ => (false, l)
  let ds := l1.takeWhile Char.isDigit
  let rest := l1.dropWhile Char.isDigit
  if ds.isEmpty then none
  else
    match rest with
    | '.' :: _ => none
    | 'e' :: _ => none
    | 'E' :: _ => none
    | _ =>
      let n : Nat := ds.foldl (fun acc c => acc * 10 + (c.toNat - '0'.toNat)) 0
      some (if neg then -(n : Int) else (n : Int), rest)

mutual
/-- Recursive-descent JSON value parser (fuel-indexed for termination). -/
def parseVal : Nat → List Char → Option (PyVal × List Char)
  | 0, _ => none
  | fuel + 1, l =>
    match skipWs l with
    | 'n' :: 'u' :: 'l' :: 'l' :: rest => some (.pnone, rest)
    | 't' :: 'r' :: 'u' :: 'e' :: rest => some (.pbool true, rest)
    | 'f' :: 'a' :: 'l' :: 's' :: 'e' :: rest => some (.pbool false, rest)
    | '"' :: rest => do
      let (s, r) ← parseStrBody rest
      pure (.pstr (String.mk s), r)
    | '[' :: rest =>
      (match skipWs rest with
       | ']' :: r2 => some (.plist [], r2)
       | _ => do
         let (items, r2) ← parseItems fuel rest
         pure (.plist items, r2))
    | '\x7b' :: rest =>
      (match skipWs rest with
       | '\x7d' :: r2 => some (.pdict [], r2)
       | _ => do
         let (items, r2) ← parseMembers fuel rest
         pure (.pdict items, r2))
    | other => do
      let (n, rest) ← parseIntLit other
      pure (.pint n, rest)

def parseItems : Nat → List Char → Option (List PyVal × List Char)
  | 0, _ => none
  | fuel + 1, l => do
    let (v, r1) ← parseVal fuel l
    match skipWs r1 with
    | ',' :: r2 => do
      let (vs, r3) ← parseItems fuel r2
      pure (v :: vs, r3)
    | ']' :: r2 => pure ([v], r2)
    | _ => none

def parseMembers : Nat → List Char → Option (List (String × PyVal) × List Char)
  | 0, _ => none
  | fuel + 1, l => do
    match skipWs l with
    | '"' :: r0 => do
      let (k, r1) ← parseStrBody r0
      match skipWs r1 with
      | ':' :: r2 => do
        let (v, r3) ← parseVal fuel r2
        match skipWs r3 with
        | ',' :: r4 => do
          let (ms, r5) ← parseMembers fuel r4
          pure ((String.mk k, v) :: ms, r5)
        | '\x7d' :: r4 => pure ([(String.mk k, v)], r4)
        | _ => none
      | _ => none
    | _ => none
end

/-- Model of `json.loads`: parse the whole string or fail. -/
def jsonLoads (s : String) : Option PyVal :=
  match parseVal (s.length + 1) s.data with
  | some (v, rest) => if (skipWs rest).isEmpty then some v else none
  | none => none

/- ===================== regex-style searchers ===================== -/

/-- Leftmost-match search: try the pattern checker at every suffix, left to
right, returning the first captured group (mirrors `re.search` /
`re.findall(...)[0]` for the patterns used here, whose captures are
maximal digit runs). -/
def findFirst (l : List Char) (pat : List Char → Option (List Char)) :
    Option (List Char) :=
  match l with
  | [] => pat []
  | c :: t =>
    match pat (c :: t) with
    | some r => some r
    | none => findFirst t pat

/-- Pattern `lit(\d{min,})`: the literal followed by a maximal digit run of
length at least `minLen`; captures the digit run. -/
def patLitDigits (lit : List Char) (minLen : Nat) (l : List Char) :
    Option (List Char) := do
  let rest ← dropLit lit l
  let ds := rest.takeWhile Char.isDigit
  if minLen ≤ ds.length then some ds else none

/-- Pattern `lit[=:](\d{min,})` (used by the textual fallback scan). -/
def patLitSepDigits (lit : List Char) (minLen : Nat) (l : List Char) :
    Option (List Char) := do
  let rest ← dropLit lit l
  match rest with
  | '=' :: r2 =>
    let ds := r2.takeWhile Char.isDigit
    if minLen ≤ ds.length then some ds else none
  | ':' :: r2 =>
    let ds := r2.takeWhile Char.isDigit
    if minLen ≤ ds.length then some ds else none
  | _ => none

/-- Pattern `"id"\s*:\s*"?(\d{10,})"?`. -/
def patQuotedIdDigits (l : List Char) : Option (List Char) := do
  let r1 ← dropLit ['"', 'i', 'd', '"'] l
  let r2 := r1.dropWhile isPyWs
  match r2 with
  | ':' :: r3 =>
    let r4 := r3.dropWhile isPyWs
    let r5 := match r4 with
      | '"' :: t => t
      | _ => r4
    let ds := r5.takeWhile Char.isDigit
    if 10 ≤ ds.length then some ds else none
  | _ => none

/- ===================== extract_order_id ===================== -/

/-- Python `v.get(k, dflt)`; a non-dict receiver raises `AttributeError`,
modelled as `Except.error`. -/
def pyGet (v : PyVal) (k : String) (dflt : PyVal) : Except Unit PyVal :=
  match v with
  | .pdict items => .ok ((dictLookup items k).getD dflt)
  | _ => .error ()

/-- Mirror of `if target_url: re.search(pat, target_url)`: a falsy value is
skipped, a truthy non-string raises inside `re.search`. -/
def urlSearch (v : PyVal) (pat : List Char → Option (List Char)) :
    Except Unit (Option String) :=
  match v with
  | .pstr s =>
    .ok (if s.isEmpty then none else (findFirst s.data pat).map String.mk)
  | other => if pyTruthy other then .error () else .ok none

/-- Methods 1a/1b of `extract_order_id` (one shared `try` block in the
source: an exception in 1a also skips 1b). -/
def extractMethod1 (content : PyVal) : Except Unit (Option String) := do
  let dx ← pyGet content "dxCard" (.pdict [])
  let item ← pyGet dx "item" (.pdict [])
  let main ← pyGet item "main" (.pdict [])
  let exc ← pyGet main "exContent" (.pdict [])
  let btn ← pyGet exc "button" (.pdict [])
  let tu ← pyGet btn "targetUrl" (.pstr "")
  let r1 ← urlSearch tu (patLitDigits "orderId=".data 1)
  match r1 with
  | some oid => pure (some oid)
  | none => do
    let mtu ← pyGet main "targetUrl" (.pstr "")
    urlSearch mtu (patLitDigits "order_detail?id=".data 1)

/-- Method 2: the `dynamicOperation` sub-structure (its own `try`). -/
def extractMethod2 (content : PyVal) : Except Unit (Option String) := do
  let dyn ← pyGet content "dynamicOperation" (.pdict [])
  let chg ← pyGet dyn "changeContent" (.pdict [])
  let dx ← pyGet chg "dxCard" (.pdict [])
  let item ← pyGet dx "item" (.pdict [])
  let main ← pyGet item "main" (.pdict [])
  let exc ← pyGet main "exContent" (.pdict [])
  let btn ← pyGet exc "button" (.pdict [])
  let tu ← pyGet btn "targetUrl" (.pstr "")
  urlSearch tu (patLitDigits "order_detail?id=".data 1)

/-- Method 3: last-resort scan of the flattened textual form, four
patterns in priority order, each requiring at least 10 digits, first
match taken. -/
def extractMethod3 (s : String) : Option String :=
  (match findFirst s.data (patLitSepDigits "orderId".data 10) with
   | some ds => some ds
   | none =>
     match findFirst s.data (patLitDigits "order_detail?id=".data 10) with
     | some ds => some ds
     | none =>
       match findFirst s.data patQuotedIdDigits with
       | some ds => some ds
       | none => findFirst s.data (patLitSepDigits "bizOrderId".data 10)).map String.mk

/-- The `content_json_str` computation of `extract_order_id` followed by
`json.loads`: `none` models both an absent/empty field and an unparsable
one (a truthy non-string field makes `json.loads` raise in the source,
with the same net effect of skipping methods 1 and 2). -/
def contentJsonOf (message_1 : PyVal) : Option PyVal :=
  match message_1 with
  | .pdict m1 =>
    match (dictLookup m1 "6").getD (.pdict []) with
    | .pdict m16 =>
      match (dictLookup m16 "3").getD (.pdict []) with
      | .pdict m163 =>
        match (dictLookup m163 "5").getD (.pstr "") with
        | .pstr s => if s.isEmpty then none else jsonLoads s
        | _ => none
      | _ => none
    | _ => none
  | _ => none

/-- `OrderStatusHandler.extract_order_id`.  A non-dict argument makes the
very first `message.get` raise, caught by the outermost handler which
returns `None`. -/
def extract_order_id (message : PyVal) : Option String :=
  match message with
  | .pdict items =>
    let message_1 := (dictLookup items "1").getD (.pdict [])
    let cjs := contentJsonOf message_1
    let o1 : Option String :=
      match cjs with
      | some content =>
        match extractMethod1 content with
        | .ok r => r
        | .error _ => none
      | none => none
    match o1 with
    | some oid => some oid
    | none =>
      let o2 : Option String :=
        match cjs with
        | some content =>
          match extractMethod2 content with
          | .ok r => r
          | .error _ => none
        | none => none
      match o2 with
      | some oid => some oid
      | none => extractMethod3 (pyStr message)
  | _ => none

/- ===================== status model ===================== -/

/-- `OrderStatusHandler.VALID_TRANSITIONS`. -/
def VALID_TRANSITIONS : List (String × List String) :=
  [("processing", ["pending_ship", "shipped", "completed", "cancelled"]),
   ("pending_ship", ["shipped", "completed", "cancelled", "refunding"]),
   ("shipped", ["completed", "cancelled", "refunding"]),
   ("completed", ["cancelled", "refunding"]),
   ("refunding", ["completed", "cancelled", "refund_cancelled"]),
   ("refund_cancelled", []),
   ("cancelled", [])]

/-- `self.status_mapping` (keys are the seven modelled statuses; the
Chinese display strings are kept for fidelity). -/
def status_mapping : List (String × String) :=
  [("processing", "处理中"),
   ("pending_ship", "待发货"),
   ("shipped", "已发货"),
   ("completed", "已完成"),
   ("refunding", "退款中"),
   ("refund_cancelled", "退款撤销"),
   ("cancelled", "已关闭")]

/-- `OrderStatusHandler._is_valid_status_transition`. -/
def _is_valid_status_transition (current_status new_status : String) : Bool :=
  if ¬ (VALID_TRANSITIONS.any (fun p => p.1 == current_status)) then true
  else if new_status == "processing" &&
      ["pending_ship", "shipped", "completed", "refunding", "refund_cancelled"].contains current_status then
    false
  else
    ((dictLookup VALID_TRANSITIONS current_status).getD []).contains new_status

/-- Harness for stating the no-regression invariant: apply a candidate
status when the transition validates, stay put otherwise. -/
def applyValid (current cand : String) : String :=
  if _is_valid_status_transition current cand then cand else current

/-- Fold a whole sequence of candidate statuses through `applyValid`. -/
def runTransitions (init : String) (cands : List String) : String :=
  cands.foldl applyValid init

/- ===================== engine state ===================== -/

/-- `ORDER_STATUS_HANDLER_CONFIG` (only the fields the engine branches on). -/
structure HandlerConfig where
  use_pending_queue : Bool
  strict_validation : Bool
  max_pending_age_hours : Nat
deriving DecidableEq

def ORDER_STATUS_HANDLER_CONFIG : HandlerConfig :=
  { use_pending_queue := true, strict_validation := true, max_pending_age_hours := 24 }

/-- One entry of `_order_status_history[order_id]`. -/
structure HistoryEntry where
  from_status : String
  to_status : String
  context : String
  timestamp : Nat
deriving DecidableEq

/-- One entry of `pending_updates[order_id]`. -/
structure UpdateInfo where
  new_status : String
  cookie_id : String
  context : String
  timestamp : Nat
deriving DecidableEq

/-- One entry of `_chat_order_map[cookie_id]`. -/
structure MapEntry where
  order_id : String
  timestamp : Nat
deriving DecidableEq

/-- One entry of `_pending_system_messages[cookie_id]` (the Python `hash`
of the canonical sorted-items string is modelled as that string itself:
both the producer and the matcher apply the same function, so equality is
preserved). -/
structure PendingSysMsg where
  message : PyVal
  send_message : String
  cookie_id : String
  msg_time : String
  new_status : String
  temp_order_id : String
  message_hash : String
  timestamp : Nat

/-- One entry of `_pending_red_reminder_messages[cookie_id]`. -/
structure PendingRedMsg where
  message : PyVal
  red_reminder : String
  user_id : String
  cookie_id : String
  msg_time : String
  new_status : String
  temp_order_id : String
  message_hash : String
  timestamp : Nat

/-- The mutable registries of one `OrderStatusHandler` instance. -/
structure HandlerState where
  pending_updates : List (String × List UpdateInfo)
  pending_system_messages : List (String × List PendingSysMsg)
  pending_red_reminder_messages : List (String × List PendingRedMsg)
  order_status_history : List (String × List HistoryEntry)
  chat_order_map : List (String × List (String × MapEntry))

/-- The empty state built by `__init__`. -/
def initState : HandlerState := ⟨[], [], [], [], []⟩

def PyVal.isDict : PyVal → Bool
  | .pdict _ => true
  | _ => false

/-- Stable insertion by key for `sorted(message.items())` (dict keys are
unique, so comparing keys alone mirrors Python's tuple ordering). -/
def sortedInsertByKey (x : String × PyVal) : List (String × PyVal) → List (String × PyVal)
  | [] => [x]
  | y :: t => if y.1 ≤ x.1 then y :: sortedInsertByKey x t else x :: y :: t

/-- Canonical structural hash of a payload:
`hash(str(sorted(message.items()))) if isinstance(message, dict) else hash(str(message))`,
with `hash` modelled as the identity on the rendered string. -/
def messageHash (m : PyVal) : String :=
  match m with
  | .pdict items =>
    let sorted := (items.foldl (fun acc x => sortedInsertByKey x acc) [])
    "[" ++ commaJoin (sorted.map (fun p => "('" ++ p.1 ++ "', " ++ pyRepr p.2 ++ ")")) ++ "]"
  | v => pyStr v

/- ===================== history tracker ===================== -/

/-- `OrderStatusHandler._record_status_history`. -/
def _record_status_history (s : HandlerState)
    (order_id from_status to_status context : String) (now : Nat) : HandlerState :=
  let hist := s.order_status_history
  let hist := if (dictLookup hist order_id).isSome then hist else dictSet hist order_id []
  if to_status != "refund_cancelled" then
    let entries := (dictLookup hist order_id).getD []
    let entries := entries ++ [⟨from_status, to_status, context, now⟩]
    let entries := if entries.length > 10 then entries.drop (entries.length - 10) else entries
    { s with order_status_history := dictSet hist order_id entries }
  else
    { s with order_status_history := hist }

/-- `OrderStatusHandler._get_previous_status`: the `to_status` of the most
recent history entry. -/
def _get_previous_status (s : HandlerState) (order_id : String) : Option String :=
  match dictLookup s.order_status_history order_id with
  | none => none
  | some entries =>
    match entries.getLast? with
    | none => none
    | some e => some e.to_status

/-- `OrderStatusHandler._add_to_pending_updates`. -/
def _add_to_pending_updates (s : HandlerState)
    (order_id new_status cookie_id context : String) (now : Nat) : HandlerState :=
  let cur := (dictLookup s.pending_updates order_id).getD []
  { s with pending_updates :=
      dictSet s.pending_updates order_id (cur ++ [⟨new_status, cookie_id, context, now⟩]) }

/- ===================== identifier resolver cache ===================== -/

def chat_order_map_ttl : Nat := 48 * 3600
def chat_order_map_max_size : Nat := 200

/-- Everything after the first occurrence of `pat`. -/
def afterFirstSub : List Char → List Char → List Char
  | [], _ => []
  | hay@(_ :: t), pat =>
    match dropLit pat hay with
    | some rest => rest
    | none => afterFirstSub t pat

/-- Everything before the first occurrence of `pat` (the whole list when
`pat` does not occur). -/
def beforeFirstSub : List Char → List Char → List Char
  | [], _ => []
  | hay@(c :: t), pat =>
    if (dropLit pat hay).isSome then [] else c :: beforeFirstSub t pat

/-- `OrderStatusHandler._normalize_identifier_values`.  The Python set is
rendered as a deduplicated list; theorems about the cache quantify over
arbitrary identifier lists, covering every set-iteration order. -/
def _normalize_identifier_values (value : PyVal) : List String :=
  match value with
  | .pstr s =>
    let normalized := pyStrip s
    if normalized.isEmpty then []
    else
      let base := [normalized]
      let base := if strContains normalized "@" then
          base ++ [String.mk (beforeFirstSub normalized.data ['@'])] else base
      let base := if endsWithCL normalized.data ".PNM".data then
          base ++ [String.mk (normalized.data.take (normalized.data.length - 4))] else base
      (base.filter (fun x => !x.isEmpty)).dedup
  | .pint n => [toString n]
  | .pbool b => [if b then "1" else "0"]
  | _ => []

def reminderParams : List String := ["sid", "itemId", "bizOrderId", "orderId", "tradeId"]

/-- `OrderStatusHandler._extract_chat_identifiers`. -/
def _extract_chat_identifiers (message : PyVal) : List String :=
  match message with
  | .pdict items =>
    let message_1 := (dictLookup items "1").getD .pnone
    let ids1 : List String :=
      match message_1 with
      | .pdict m1 =>
        let nestedIds :=
          match (dictLookup m1 "1").getD .pnone with
          | .pdict nested =>
            (["1", "2", "3"].map (fun k =>
              _normalize_identifier_values ((dictLookup nested k).getD .pnone))).flatten
          | _ => []
        let directIds :=
          (["2", "3", "4"].map (fun k =>
            _normalize_identifier_values ((dictLookup m1 k).getD .pnone))).flatten
        let tenIds :=
          match (dictLookup m1 "10").getD .pnone with
          | .pdict m10 =>
            let sender := _normalize_identifier_values ((dictLookup m10 "senderUserId").getD .pnone)
            let recv := _normalize_identifier_values ((dictLookup m10 "receiver").getD .pnone)
            let urlIds :=
              match (dictLookup m10 "reminderUrl").getD (.pstr "") with
              | .pstr url =>
                (reminderParams.map (fun param =>
                  let pat := (param ++ "=").data
                  if containsSub url.data pat then
                    _normalize_identifier_values (.pstr (String.mk
                      (beforeFirstSub (beforeFirstSub (afterFirstSub url.data pat) pat) ['&'])))
                  else [])).flatten
              | _ => []
            sender ++ recv ++ urlIds
          | _ => []
        nestedIds ++ directIds ++ tenIds
      | _ => _normalize_identifier_values message_1
    let ids3 :=
      match (dictLookup items "3").getD .pnone with
      | .pstr s => _normalize_identifier_values (.pstr s)
      | .pint n => _normalize_identifier_values (.pint n)
      | .pbool b => _normalize_identifier_values (.pbool b)
      | _ => []
    (ids1 ++ ids3).dedup
  | _ => []

/-- Stable insertion for the timestamp sort used by the capacity eviction. -/
def insertByTs (x : String × MapEntry) : List (String × MapEntry) → List (String × MapEntry)
  | [] => [x]
  | y :: t => if y.2.timestamp ≤ x.2.timestamp then y :: insertByTs x t else x :: y :: t

/-- Stable ascending sort by timestamp (Python `sorted(..., key=timestamp)`). -/
def sortByTs (l : List (String × MapEntry)) : List (String × MapEntry) :=
  l.foldl (fun acc x => insertByTs x acc) []

/-- Body of `_store_chat_order_mapping` acting on one account's mapping:
TTL purge, the capacity check, then the inserts. -/
def storeMappingCore (identifiers : List String) (mapping : List (String × MapEntry))
    (order_id : String) (now : Nat) : List (String × MapEntry) :=
  let mapping1 := mapping.filter (fun p => ¬ (now - p.2.timestamp > chat_order_map_ttl))
  let mapping2 :=
    if mapping1.length ≥ chat_order_map_max_size then
      let sortedItems := sortByTs mapping1
      let overflow := mapping1.length + identifiers.length - chat_order_map_max_size
      if overflow > 0 then
        ((sortedItems.take overflow).map Prod.fst).foldl dictPop mapping1
      else mapping1
    else mapping1
  identifiers.foldl (fun m identifier => dictSet m identifier ⟨order_id, now⟩) mapping2

/-- `OrderStatusHandler._store_chat_order_mapping`. -/
def _store_chat_order_mapping (s : HandlerState) (order_id cookie_id : String)
    (message : PyVal) (now : Nat) : HandlerState :=
  if order_id.isEmpty || cookie_id.isEmpty || ¬ message.isDict then s
  else
    let identifiers := _extract_chat_identifiers message
    if identifiers.isEmpty then s
    else
      let mapping := (dictLookup s.chat_order_map cookie_id).getD []
      let mapping2 := storeMappingCore identifiers mapping order_id now
      let cmap := dictSet s.chat_order_map cookie_id mapping2
      let cmap := if mapping2.isEmpty then dictPop cmap cookie_id else cmap
      { s with chat_order_map := cmap }

/-- The scan loop of `_lookup_order_id_by_message`: returns the first
non-expired hit (leaving the collected expired keys unpurged, as the
early `return` in the source does) or, after a full scan, the list of
expired keys met on the way. -/
def lookupGo (mapping : List (String × MapEntry)) (now : Nat) :
    List String → List String → Option String × List String
  | [], acc => (none, acc)
  | identifier :: rest, acc =>
    match dictLookup mapping identifier with
    | none => lookupGo mapping now rest acc
    | some e =>
      if now - e.timestamp > chat_order_map_ttl then
        lookupGo mapping now rest (acc ++ [identifier])
      else if !e.order_id.isEmpty then (some e.order_id, acc)
      else lookupGo mapping now rest acc

/-- Body of `_lookup_order_id_by_message` on one account's mapping. -/
def lookupMappingCore (identifiers : List String) (mapping : List (String × MapEntry))
    (now : Nat) : Option String × List (String × MapEntry) :=
  match lookupGo mapping now identifiers [] with
  | (some oid, _) => (some oid, mapping)
  | (none, expired) => (none, expired.foldl dictPop mapping)

/-- `OrderStatusHandler._lookup_order_id_by_message`. -/
def _lookup_order_id_by_message (s : HandlerState) (message : PyVal)
    (cookie_id : String) (now : Nat) : Option String × HandlerState :=
  if cookie_id.isEmpty || ¬ message.isDict then (none, s)
  else
    let identifiers := _extract_chat_identifiers message
    if identifiers.isEmpty then (none, s)
    else
      match dictLookup s.chat_order_map cookie_id with
      | none => (none, s)
      | some mapping =>
        if mapping.isEmpty then (none, s)
        else
          match lookupMappingCore identifiers mapping now with
          | (some oid, m2) =>
            (some oid, { s with chat_order_map := dictSet s.chat_order_map cookie_id m2 })
          | (none, m2) =>
            let cmap := dictSet s.chat_order_map cookie_id m2
            let cmap := if m2.isEmpty then dictPop cmap cookie_id else cmap
            (none, { s with chat_order_map := cmap })

/- ===================== persistence gateway & retries ===================== -/

/-- A row returned by `db_manager.get_order_by_id` (only the fields the
engine reads; `order_status` optional to mirror `row.get('order_status',
'processing')`). -/
structure OrderRec where
  order_status : Option String
  cookie_id : String
deriving DecidableEq

/-- One retry loop `for attempt in range(max_retries)` with
`time.sleep(0.1*(attempt+1))` between failed attempts.  The oracle `f`
gives the gateway outcome of each attempt; the result is the value on
first success (`none` when every attempt raised), the number of attempts
consumed, and the sleeps performed, in deciseconds. -/
def retryLoop {α : Type} (f : Nat → Except Unit α) : Nat → Nat → Option α × Nat × List Nat
  | 0, _ => (none, 0, [])
  | 1, i =>
    (match f i with
     | .ok a => (some a, 1, [])
     | .error _ => (none, 1, []))
  | n + 2, i =>
    match f i with
    | .ok a => (some a, 1, [])
    | .error _ =>
      let (r, c, sl) := retryLoop f (n + 1) (i + 1)
      (r, c + 1, (i + 1) :: sl)

/-- `max_retries = 3`. -/
def retry3 {α : Type} (f : Nat → Except Unit α) : Option α × Nat × List Nat :=
  retryLoop f 3 0

/-- Observable outcome of one `update_order_status` call: the returned
bool, the state after the call, the gateway traffic of the two retry
loops, the status handed to `insert_or_update_order` (if the commit stage
was reached) and the status actually persisted (if the commit succeeded). -/
structure UpdResult where
  ok : Bool
  state : HandlerState
  readAttempts : Nat
  readSleeps : List Nat
  writeAttempts : Nat
  writeSleeps : List Nat
  writeStatus : Option String
  committed : Option String

/-- `OrderStatusHandler.update_order_status`.  `fGet`/`fUpsert` are the
attempt-indexed outcomes of `db_manager.get_order_by_id` and
`db_manager.insert_or_update_order`. -/
def update_order_status
    (fGet : Nat → Except Unit (Option OrderRec))
    (fUpsert : Nat → Except Unit Bool)
    (s : HandlerState)
    (order_id new_status cookie_id context : String) (now : Nat) : UpdResult :=
  if ¬ (status_mapping.any (fun p => p.1 == new_status)) then
    ⟨false, s, 0, [], 0, [], none, none⟩
  else
    match retry3 fGet with
    | (none, ra, rs) => ⟨false, s, ra, rs, 0, [], none, none⟩
    | (some current_order, ra, rs) =>
      match current_order with
      | none =>
        if ORDER_STATUS_HANDLER_CONFIG.use_pending_queue then
          ⟨false, _add_to_pending_updates s order_id new_status cookie_id context now,
           ra, rs, 0, [], none, none⟩
        else ⟨false, s, ra, rs, 0, [], none, none⟩
      | some orec =>
        let current_status := orec.order_status.getD "processing"
        if current_status == new_status then
          ⟨true, s, ra, rs, 0, [], none, none⟩
        else if ORDER_STATUS_HANDLER_CONFIG.strict_validation &&
            ¬ _is_valid_status_transition current_status new_status then
          ⟨false, s, ra, rs, 0, [], none, none⟩
        else
          let final_status :=
            if new_status == "refund_cancelled" then
              match _get_previous_status s order_id with
              | some previous_status => previous_status
              | none => current_status
            else new_status
          match retry3 fUpsert with
          | (none, wa, ws) => ⟨false, s, ra, rs, wa, ws, some final_status, none⟩
          | (some success, wa, ws) =>
            if success then
              ⟨true,
               _record_status_history s order_id current_status final_status context now,
               ra, rs, wa, ws, some final_status, some final_status⟩
            else
              ⟨false, s, ra, rs, wa, ws, some final_status, none⟩

/- ===================== notification classifier ===================== -/

/-- `OrderStatusHandler._extract_task_name` (total: every failure path in
the source is caught inside the function).  Returns the raw `taskName`
value, `.pnone` when absent. -/
def _extract_task_name (message : PyVal) : PyVal :=
  match message with
  | .pdict items =>
    match (dictLookup items "1").getD .pnone with
    | .pdict m1 =>
      match (dictLookup m1 "10").getD .pnone with
      | .pdict m10 =>
        let biz_tag := (dictLookup m10 "bizTag").getD .pnone
        if ¬ pyTruthy biz_tag then .pnone
        else
          let biz_data :=
            match biz_tag with
            | .pstr str => (jsonLoads str).getD .pnone
            | v => v
          match biz_data with
          | .pdict bd => (dictLookup bd "taskName").getD .pnone
          | _ => .pnone
      | _ => .pnone
    | _ => .pnone
  | _ => .pnone

def cancelledTaskKeywords : List String :=
  ["退款成功", "退货成功", "退货退款成功", "退款退货成功", "关闭订单", "交易关闭",
   "退款已完成", "交易成功，有退款", "交易成功，已退款"]

def refundingTaskKeywords : List String :=
  ["改为仅退款已同意", "发起退款申请", "申请退款", "退款处理中"]

def refundCancelledTaskKeywords : List String :=
  ["退款申请已撤销", "退款申请已取消", "取消退款申请"]

/-- `OrderStatusHandler._infer_status_from_task_name`.  `Except.error`
models the uncaught `AttributeError` of `task_name.strip()` on a truthy
non-string `taskName` (it propagates to the caller's handler). -/
def _infer_status_from_task_name (message : PyVal) : Except Unit (Option String) :=
  let task_raw := _extract_task_name message
  if ¬ pyTruthy task_raw then .ok none
  else
    match task_raw with
    | .pstr s =>
      let task_name := pyStrip s
      if task_name.isEmpty then .ok none
      else if strContains task_name "退款申请已同意" && ¬ strContains task_name "退货" &&
          ¬ strContains task_name "改为" then .ok (some "cancelled")
      else if strContains task_name "仅退款已同意" && ¬ strContains task_name "退货" &&
          ¬ strContains task_name "改为" then .ok (some "cancelled")
      else if containsAny task_name cancelledTaskKeywords then .ok (some "cancelled")
      else if containsAny task_name refundingTaskKeywords then .ok (some "refunding")
      else if containsAny task_name refundCancelledTaskKeywords then .ok (some "refund_cancelled")
      else .ok none
    | _ => .error ()

/-- `OrderStatusHandler._infer_status_from_message`. -/
def _infer_status_from_message (send_message : String) (message : PyVal) :
    Except Unit (Option String) :=
  if send_message.isEmpty then _infer_status_from_task_name message
  else
    let normalized := pyStrip send_message
    let normalized := stripChars normalized ['[', ']']
    let normalized := stripChars normalized ['【', '】']
    let normalized := pyStrip normalized
    if containsAny normalized ["退款成功", "退货成功", "退货退款成功"] ||
       containsAny normalized ["钱款已原路退返", "钱款已退回", "款项已退回",
                               "交易成功，已退款", "交易关闭，已退款"] then
      .ok (some "cancelled")
    else if strContains normalized "已退款" &&
        containsAny normalized ["交易成功", "交易关闭"] then
      .ok (some "cancelled")
    else if (strContains normalized "退款申请" || strContains normalized "退货申请") &&
        containsAny normalized ["已同意", "同意了", "通过了", "同意退款", "同意退货"] then
      .ok (some "refunding")
    else if (strContains normalized "退款申请" || strContains normalized "退货申请") &&
        containsAny normalized ["已撤销", "撤销了", "取消了", "已取消"] then
      .ok (some "refund_cancelled")
    else if containsAny normalized ["买家已付款", "付款完成", "已付款", "等待你发货", "待发货"] then
      .ok (some "pending_ship")
    else if containsAny normalized ["你已发货", "已发货", "等待买家确认收货"] then
      .ok (some "shipped")
    else if containsAny normalized ["确认收货", "交易成功"] then
      .ok (some "completed")
    else if strContains normalized "交易关闭" || strContains normalized "关闭了订单" then
      .ok (some "cancelled")
    else _infer_status_from_task_name message

def refundSuccessTipKeywords : List String :=
  ["退款成功", "钱款已原路退返", "钱款已退回", "退款已完成", "交易关闭，已退款",
   "交易成功，已退款", "交易成功，有退款"]

/-- Tail of `_check_refund_message`: the `detailNotice`/`reminderContent`
fallback loop. -/
def checkExtraTexts : List PyVal → Option String
  | [] => none
  | v :: rest =>
    let normalized_extra := stripChars (pyStrip (pyStr v)) ['[', ']', '【', '】']
    if normalized_extra.isEmpty then checkExtraTexts rest
    else if containsAny normalized_extra refundSuccessTipKeywords then some "cancelled"
    else if (strContains normalized_extra "退款申请" || strContains normalized_extra "退货申请") &&
        containsAny normalized_extra ["已同意", "处理中", "待处理"] then some "refunding"
    else checkExtraTexts rest

/-- Body of `_check_refund_message` after `json.loads` succeeded; the
surrounding `try` turns an `Except.error` into `None`. -/
def checkRefundCore (content_data : PyVal) (message : PyVal) (m10 : PyVal) :
    Except Unit (Option String) := do
  let tipVal : PyVal :=
    match content_data with
    | .pdict cd =>
      (match (dictLookup cd "tip").getD .pnone with
       | .pdict tf => (dictLookup tf "tip").getD (.pstr "")
       | .pstr t => .pstr t
       | _ => .pstr "")
    | _ => .pstr ""
  let tipRes : Except Unit (Option String) :=
    if pyTruthy tipVal then
      match tipVal with
      | .pstr t =>
        let normalized_tip := stripChars (pyStrip t) ['[', ']', '【', '】']
        if containsAny normalized_tip refundSuccessTipKeywords then .ok (some "cancelled")
        else if (strContains normalized_tip "退款申请" || strContains normalized_tip "退货申请") &&
            containsAny normalized_tip ["已同意", "同意", "处理中"] then .ok (some "refunding")
        else .ok none
      | _ => .error ()
    else .ok none
  match tipRes with
  | .error _ => .error ()
  | .ok (some st) => pure (some st)
  | .ok none =>
    let dynOp ← pyGet content_data "dynamicOperation" (.pdict [])
    let dynamic_content ← pyGet dynOp "changeContent" (.pdict [])
    let dynRes : Except Unit (Option String) ←
      if pyTruthy dynamic_content then do
        let a ← pyGet dynamic_content "dxCard" (.pdict [])
        let b ← pyGet a "item" (.pdict [])
        let dx_card ← pyGet b "main" (.pdict [])
        let ex_content : PyVal :=
          match dx_card with
          | .pdict d => (dictLookup d "exContent").getD (.pdict [])
          | _ => .pdict []
        let title : PyVal :=
          match ex_content with
          | .pdict d => (dictLookup d "title").getD (.pstr "")
          | _ => .pstr ""
        let btnVal ← pyGet ex_content "button" (.pdict [])
        let button_text : PyVal :=
          match btnVal with
          | .pdict bd => (dictLookup bd "text").getD (.pstr "")
          | .pstr bs => .pstr bs
          | _ => .pstr ""
        let titleIs := fun (x : String) =>
          match title with
          | .pstr t => t == x
          | _ => false
        let btnIs := fun (x : String) =>
          match button_text with
          | .pstr t => t == x
          | _ => false
        if titleIs "我发起了退款申请" && btnIs "已撤销" then
          pure (some "refund_cancelled")
        else do
          let c1 : Bool ←
            if pyTruthy title then
              match title with
              | .pstr t => pure (strContains t "退货" && btnIs "已同意")
              | _ => Except.error ()
            else pure false
          if c1 then pure (some "refunding")
          else do
            let c2 : Bool ←
              if pyTruthy title then
                match title with
                | .pstr t => pure (strContains t "退款" && (btnIs "已同意" || btnIs "同意退款"))
                | _ => Except.error ()
              else pure false
            if c2 then
              let task_raw := _extract_task_name message
              let task_name_v : PyVal := if pyTruthy task_raw then task_raw else .pstr ""
              if pyTruthy task_name_v then
                match task_name_v with
                | .pstr tn =>
                  if containsAny tn ["退货", "退货退款"] then pure (some "refunding")
                  else pure (some "cancelled")
                | _ => Except.error ()
              else pure (some "cancelled")
            else pure none
      else pure none
    match dynRes with
    | some st => pure (some st)
    | none =>
      let detail_notice : PyVal :=
        match m10 with
        | .pdict d => (dictLookup d "detailNotice").getD .pnone
        | _ => .pstr ""
      let reminder_content : PyVal :=
        match m10 with
        | .pdict d => (dictLookup d "reminderContent").getD .pnone
        | _ => .pstr ""
      pure (checkExtraTexts ([detail_notice, reminder_content].filter pyTruthy))

/-- `OrderStatusHandler._check_refund_message` (total: both `try` handlers
of the source return `None`). -/
def _check_refund_message (message : PyVal) (_send_message : String) : Option String :=
  match message with
  | .pdict items =>
    (match (dictLookup items "1").getD (.pdict []) with
     | .pdict m1 =>
       (match (dictLookup m1 "6").getD (.pdict []) with
        | .pdict m16 =>
          let cjs : Option String :=
            match (dictLookup m16 "3").getD (.pdict []) with
            | .pdict m163 =>
              (match (dictLookup m163 "5").getD (.pstr "") with
               | .pstr str => if str.isEmpty then none else some str
               | _ => none)
            | _ => none
          match cjs with
          | none => none
          | some str =>
            match jsonLoads str with
            | none => none
            | some content_data =>
              match checkRefundCore content_data message ((dictLookup items "10").getD .pnone) with
              | .ok r => r
              | .error _ => none
        | _ => none)
     | _ => none)
  | _ => none

/-- The literal table `message_status_mapping` of `handle_system_message`. -/
def message_status_mapping : List (String × String) :=
  [("[买家确认收货，交易成功]", "completed"),
   ("[你已确认收货，交易成功]", "completed"),
   ("[你已发货]", "shipped"),
   ("你已发货", "shipped"),
   ("[你已发货，请等待买家确认收货]", "shipped"),
   ("[我已付款，等待你发货]", "pending_ship"),
   ("[我已拍下，待付款]", "processing"),
   ("[买家已付款]", "pending_ship"),
   ("[付款完成]", "pending_ship"),
   ("[已付款，待发货]", "pending_ship"),
   ("[退款成功，钱款已原路退返]", "cancelled"),
   ("[你关闭了订单，钱款已原路退返]", "cancelled")]

/-- The classification cascade at the top of `handle_system_message`:
refund-structural check, then the literal table, then keyword/task-name
inference.  `Except.error` models an inference exception reaching the
function's own `try` handler. -/
def classify_system_message (message : PyVal) (send_message : String) :
    Except Unit (Option String) :=
  match _check_refund_message message send_message with
  | some st => .ok (some st)
  | none =>
    match dictLookup message_status_mapping send_message with
    | some st => .ok (some st)
    | none => _infer_status_from_message send_message message

/- ===================== reconciliation engine entry points ===================== -/

/-- Observable outcome of one `handle_system_message` call. -/
structure HandleRes where
  ok : Bool
  state : HandlerState
  upd : Option UpdResult
  deferred : Bool

/-- `OrderStatusHandler.handle_system_message`.  `uuid_hex` stands for the
`uuid.uuid4().hex[:8]` component of the generated placeholder id. -/
def handle_system_message
    (fGet : Nat → Except Unit (Option OrderRec)) (fUpsert : Nat → Except Unit Bool)
    (s : HandlerState) (message : PyVal) (send_message cookie_id msg_time : String)
    (now : Nat) (uuid_hex : String) : HandleRes :=
  match classify_system_message message send_message with
  | .error _ => ⟨false, s, none, false⟩
  | .ok none => ⟨false, s, none, false⟩
  | .ok (some new_status) =>
    let context := send_message ++ " - " ++ msg_time
    match extract_order_id message with
    | some order_id =>
      let s1 := _store_chat_order_mapping s order_id cookie_id message now
      let u := update_order_status fGet fUpsert s1 order_id new_status cookie_id context now
      ⟨true, u.state, some u, false⟩
    | none =>
      match _lookup_order_id_by_message s message cookie_id now with
      | (some order_id, s1) =>
        let s2 := _store_chat_order_mapping s1 order_id cookie_id message now
        let u := update_order_status fGet fUpsert s2 order_id new_status cookie_id context now
        ⟨true, u.state, some u, false⟩
      | (none, s1) =>
        if ¬ ORDER_STATUS_HANDLER_CONFIG.use_pending_queue then ⟨false, s1, none, false⟩
        else
          let temp_order_id := "temp_" ++ toString (now * 1000) ++ "_" ++ uuid_hex
          let s2 := _add_to_pending_updates s1 temp_order_id new_status cookie_id
            (send_message ++ " - " ++ msg_time ++ " - 等待订单ID提取") now
          let q := (dictLookup s2.pending_system_messages cookie_id).getD []
          let entry : PendingSysMsg :=
            ⟨message, send_message, cookie_id, msg_time, new_status, temp_order_id,
             messageHash message, now⟩
          let newQ := dictSet s2.pending_system_messages cookie_id (q ++ [entry])
          let s3 := { s2 with pending_system_messages := newQ }
          ⟨true, s3, none, true⟩

/-- The backwards index scan `for i in range(len(queue)-1, -1, -1)` used
by `on_order_id_extracted` for hash matching; `findHashFrom hashOf q h n`
inspects indices `n-1, n-2, …, 0` in that order. -/
def findHashFrom {α : Type} (hashOf : α → String) (q : List α) (h : String) :
    Nat → Option Nat
  | 0 => none
  | i + 1 =>
    match q.get? i with
    | some msg => if hashOf msg == h then some i else findHashFrom hashOf q h i
    | none => findHashFrom hashOf q h i

/-- Observable outcome of one `on_order_id_extracted` call: the final
state, and for each of the two queues the entry that was drained together
with the `update_order_status` outcome it produced. -/
structure OOIEResult where
  state : HandlerState
  sysRes : Option (PendingSysMsg × UpdResult)
  redRes : Option (PendingRedMsg × UpdResult)

/-- The system-message drain block of `on_order_id_extracted` (lines
1251-1302 of the source): hash-match newest-first, FIFO fallback, commit
under the resolved id, clean up the placeholder's pending update, drop
the queue key once empty. -/
def drainSysMessages
    (gets : Nat → Nat → Except Unit (Option OrderRec))
    (ups : Nat → Nat → Except Unit Bool)
    (s0 : HandlerState) (order_id cookie_id : String) (message : Option PyVal)
    (now : Nat) : HandlerState × Option (PendingSysMsg × UpdResult) :=
  let sysQ := (dictLookup s0.pending_system_messages cookie_id).getD []
  if sysQ.isEmpty then (s0, none)
  else
    let idx : Option Nat :=
      match message with
      | some m => findHashFrom (fun e => e.message_hash) sysQ (messageHash m) sysQ.length
      | none => none
    let sel : Option PendingSysMsg × List PendingSysMsg :=
      match idx with
      | some i => (sysQ.get? i, sysQ.eraseIdx i)
      | none => (sysQ.head?, sysQ.tail)
    match sel with
    | (none, _) => (s0, none)
    | (some pm, q2) =>
      let newQ := dictSet s0.pending_system_messages cookie_id q2
      let s1 := { s0 with pending_system_messages := newQ }
      let context := pm.send_message ++ " - " ++ pm.msg_time ++ " - 延迟处理"
      let u := update_order_status (gets 0) (ups 0) s1 order_id pm.new_status cookie_id context now
      let s2 := u.state
      let s3 :=
        if (dictLookup s2.pending_updates pm.temp_order_id).isSome then
          { s2 with pending_updates := dictPop s2.pending_updates pm.temp_order_id }
        else s2
      let s4 :=
        if q2.isEmpty then
          { s3 with pending_system_messages := dictPop s3.pending_system_messages cookie_id }
        else s3
      (s4, some (pm, u))

/-- The red-reminder drain block of `on_order_id_extracted` (lines
1304-1351 of the source). -/
def drainRedMessages
    (gets : Nat → Nat → Except Unit (Option OrderRec))
    (ups : Nat → Nat → Except Unit Bool)
    (sA : HandlerState) (order_id cookie_id : String) (message : Option PyVal)
    (now : Nat) : HandlerState × Option (PendingRedMsg × UpdResult) :=
  let redQ := (dictLookup sA.pending_red_reminder_messages cookie_id).getD []
  if redQ.isEmpty then (sA, none)
  else
    let idx : Option Nat :=
      match message with
      | some m => findHashFrom (fun e => e.message_hash) redQ (messageHash m) redQ.length
      | none => none
    let sel : Option PendingRedMsg × List PendingRedMsg :=
      match idx with
      | some i => (redQ.get? i, redQ.eraseIdx i)
      | none => (redQ.head?, redQ.tail)
    match sel with
    | (none, _) => (sA, none)
    | (some pm, q2) =>
      let newQ := dictSet sA.pending_red_reminder_messages cookie_id q2
      let s1 := { sA with pending_red_reminder_messages := newQ }
      let context := pm.red_reminder ++ " - 用户" ++ pm.user_id ++ " - " ++ pm.msg_time ++ " - 延迟处理"
      let u := update_order_status (gets 1) (ups 1) s1 order_id pm.new_status cookie_id context now
      let s2 := u.state
      let s3 :=
        if (dictLookup s2.pending_updates pm.temp_order_id).isSome then
          { s2 with pending_updates := dictPop s2.pending_updates pm.temp_order_id }
        else s2
      let s4 :=
        if q2.isEmpty then
          { s3 with pending_red_reminder_messages := dictPop s3.pending_red_reminder_messages cookie_id }
        else s3
      (s4, some (pm, u))

/-- `OrderStatusHandler.on_order_id_extracted`.  `gets k`/`ups k` are the
gateway oracles of the `k`-th `update_order_status` call made inside (the
system-message drain is call 0, the red-reminder drain call 1). -/
def on_order_id_extracted
    (gets : Nat → Nat → Except Unit (Option OrderRec))
    (ups : Nat → Nat → Except Unit Bool)
    (s : HandlerState) (order_id cookie_id : String) (message : Option PyVal)
    (now : Nat) : OOIEResult :=
  let s0 :=
    match message with
    | some m => _store_chat_order_mapping s order_id cookie_id m now
    | none => s
  if ¬ ORDER_STATUS_HANDLER_CONFIG.use_pending_queue then ⟨s0, none, none⟩
  else
    let step1 := drainSysMessages gets ups s0 order_id cookie_id message now
    let step2 := drainRedMessages gets ups step1.1 order_id cookie_id message now
    ⟨step2.1, step1.2, step2.2⟩

/- ===================== shared lemmas ===================== -/

/-- Exhaustive description of the three-attempt retry loop in terms of the
first three oracle outcomes. -/
theorem retry3_cases {α : Type} (f : Nat → Except Unit α) :
    retry3 f =
      match f 0 with
      | .ok a => (some a, 1, [])
      | .error _ =>
        match f 1 with
        | .ok a => (some a, 2, [1])
        | .error _ =>
          match f 2 with
          | .ok a => (some a, 3, [1, 2])
          | .error _ => (none, 3, [1, 2]) := by
  cases h0 : f 0 <;> cases h1 : f 1 <;> cases h2 : f 2 <;>
    simp [retry3, retryLoop, h0, h1, h2]

theorem retry3_attempts_le {α : Type} (f : Nat → Except Unit α) :
    (retry3 f).2.1 ≤ 3 := by
  rw [retry3_cases]
  cases f 0 <;> cases f 1 <;> cases f 2 <;> simp

theorem retry3_sleeps_shape {α : Type} (f : Nat → Except Unit α) :
    (retry3 f).2.2 = [] ∨ (retry3 f).2.2 = [1] ∨ (retry3 f).2.2 = [1, 2] := by
  rw [retry3_cases]
  cases f 0 <;> cases f 1 <;> cases f 2 <;> simp

theorem retry3_all_fail {α : Type} (f : Nat → Except Unit α)
    (h : ∀ k, f k = .error ()) : retry3 f = (none, 3, [1, 2]) := by
  rw [retry3_cases, h 0, h 1, h 2]

/- ===================== concrete fixtures ===================== -/

/-- A gateway whose reads always succeed against an explicit database
table. -/
def okGet (db : List (String × OrderRec)) (order_id : String) :
    Nat → Except Unit (Option OrderRec) :=
  fun _ => .ok (dictLookup db order_id)

def cFGetRefunding : Nat → Except Unit (Option OrderRec) :=
  fun _ => .ok (some ⟨some "refunding", "c"⟩)

def cFUpOk : Nat → Except Unit Bool := fun _ => .ok true

def cFUpFail : Nat → Except Unit Bool := fun _ => .error ()

/-- A state whose history for order `o1` holds exactly the entry
`(pending_ship, refunding)`. -/
def cHist1 : HandlerState :=
  { initState with order_status_history := [("o1", [⟨"pending_ship", "refunding", "", 0⟩])] }

/-- A per-account mapping already holding 199 fresh entries. -/
def bigMap199 : List (String × MapEntry) :=
  (List.range 199).map (fun i => (toString i, ⟨"o", 0⟩))

/- ===================== claims ===================== -/

/-- C1.  Evaluation of `update_order_status` at the spec's own scenario:
order `o1` currently `refunding`, history exactly `[(pending_ship,
refunding)]`, candidate `refund_cancelled`.  The call succeeds but the
status handed to the gateway — and committed — is `refunding` (the most
recent history entry's `to_status`), not `pending_ship` as the claim
requires: the rollback never takes place. -/
theorem refund_cancelled_commits_last_to_status :
    (update_order_status cFGetRefunding cFUpOk cHist1 "o1" "refund_cancelled" "c" "ctx" 5).ok
      = true ∧
    (update_order_status cFGetRefunding cFUpOk cHist1 "o1" "refund_cancelled" "c" "ctx" 5).committed
      = some "refunding" ∧
    (update_order_status cFGetRefunding cFUpOk cHist1 "o1" "refund_cancelled" "c" "ctx" 5).committed
      ≠ some "pending_ship" := by
  refine ⟨rfl, rfl, ?_⟩
  decide

/-- C2.  Evaluation of the mapping-cache insert at a 199-entry account
mapping receiving two fresh identifiers: the eviction guard
(`len(mapping) >= 200`) does not fire, so the mapping grows to 201
entries, exceeding the documented 200-entry capacity bound. -/
theorem store_mapping_exceeds_capacity :
    (storeMappingCore ["a", "b"] bigMap199 "o2" 0).length = 201 ∧
    chat_order_map_max_size < (storeMappingCore ["a", "b"] bigMap199 "o2" 0).length := by
  constructor
  · set_option maxRecDepth 40000 in decide
  · set_option maxRecDepth 40000 in decide

/-- C10.  A candidate status outside the seven modelled statuses makes
`update_order_status` return `false` immediately: no gateway read or
write is attempted, the state (pending queues and history included) is
untouched. -/
theorem update_rejects_unknown_status
    (fGet : Nat → Except Unit (Option OrderRec)) (fUpsert : Nat → Except Unit Bool)
    (s : HandlerState) (order_id new_status cookie_id context : String) (now : Nat)
    (h : status_mapping.any (fun p => p.1 == new_status) = false) :
    update_order_status fGet fUpsert s order_id new_status cookie_id context now =
      ⟨false, s, 0, [], 0, [], none, none⟩ := by
  unfold update_order_status
  rw [h]
  simp

theorem update_rejects_unknown_status_witness :
    status_mapping.any (fun p => p.1 == "paid") = false ∧
    update_order_status cFGetRefunding cFUpOk initState "o9" "paid" "c" "" 0 =
      ⟨false, initState, 0, [], 0, [], none, none⟩ :=
  ⟨by decide,
   update_rejects_unknown_status cFGetRefunding cFUpOk initState "o9" "paid" "c" "" 0
     (by decide)⟩

/-- C4.  When the persisted status already equals the candidate status,
`update_order_status` is a no-op success: it returns `true`, performs no
gateway write, and leaves the whole state (history included) unchanged —
and therefore a second identical delivery behaves identically. -/
theorem update_same_status_noop
    (db : List (String × OrderRec)) (fUpsert : Nat → Except Unit Bool)
    (s : HandlerState) (order_id S cookie_id context : String) (now : Nat)
    (orec : OrderRec)
    (hS : status_mapping.any (fun p => p.1 == S) = true)
    (hdb : dictLookup db order_id = some orec)
    (hcur : orec.order_status.getD "processing" = S) :
    (update_order_status (okGet db order_id) fUpsert s order_id S cookie_id context now).ok
      = true ∧
    (update_order_status (okGet db order_id) fUpsert s order_id S cookie_id context now).state
      = s ∧
    (update_order_status (okGet db order_id) fUpsert s order_id S cookie_id context now).writeAttempts
      = 0 ∧
    (update_order_status (okGet db order_id) fUpsert s order_id S cookie_id context now).committed
      = none := by
  have hret : retry3 (okGet db order_id) = (some (dictLookup db order_id), 1, []) := by
    simp [retry3, retryLoop, okGet]
  unfold update_order_status
  rw [hS, hret, hdb]
  simp [hcur]

theorem update_same_status_noop_witness :
    (status_mapping.any (fun p => p.1 == "shipped") = true ∧
     dictLookup [("o1", (⟨some "shipped", "c"⟩ : OrderRec))] "o1" = some ⟨some "shipped", "c"⟩ ∧
     (⟨some "shipped", "c"⟩ : OrderRec).order_status.getD "processing" = "shipped") ∧
    (update_order_status (okGet [("o1", ⟨some "shipped", "c"⟩)] "o1") cFUpOk initState
       "o1" "shipped" "c" "" 0).ok = true ∧
    (update_order_status (okGet [("o1", ⟨some "shipped", "c"⟩)] "o1") cFUpOk initState
       "o1" "shipped" "c" "" 0).state = initState ∧
    (update_order_status (okGet [("o1", ⟨some "shipped", "c"⟩)] "o1") cFUpOk initState
       "o1" "shipped" "c" "" 0).writeAttempts = 0 ∧
    (update_order_status (okGet [("o1", ⟨some "shipped", "c"⟩)] "o1") cFUpOk initState
       "o1" "shipped" "c" "" 0).committed = none :=
  ⟨⟨by decide, by decide, by decide⟩,
   update_same_status_noop [("o1", ⟨some "shipped", "c"⟩)] cFUpOk initState
     "o1" "shipped" "c" "" 0 ⟨some "shipped", "c"⟩ (by decide) (by decide) (by decide)⟩

/-- One validated step out of a non-`processing` status listed in the
transition table stays inside the table and never reaches `processing`. -/
theorem applyValid_step (c n : String) (hc : ¬ c = "processing")
    (hk : VALID_TRANSITIONS.any (fun p => p.1 == c) = true) :
    ¬ applyValid c n = "processing" ∧
    VALID_TRANSITIONS.any (fun p => p.1 == applyValid c n) = true := by
  cases hv : _is_valid_status_transition c n with
  | false =>
    have happ : applyValid c n = c := by simp [applyValid, hv]
    rw [happ]
    exact ⟨hc, hk⟩
  | true =>
    have happ : applyValid c n = n := by simp [applyValid, hv]
    rw [happ]
    have hmem : ((dictLookup VALID_TRANSITIONS c).getD []).contains n = true := by
      unfold _is_valid_status_transition at hv
      rw [hk] at hv
      simp only [not_true_eq_false, if_false] at hv
      split at hv
      · exact absurd hv (by simp)
      · exact hv
    have hc6 : c = "pending_ship" ∨ c = "shipped" ∨ c = "completed" ∨
        c = "refunding" ∨ c = "refund_cancelled" ∨ c = "cancelled" := by
      simp [VALID_TRANSITIONS] at hk
      rcases hk with h | h | h | h | h | h | h
      · exact absurd h.symm hc
      · exact Or.inl h.symm
      · exact Or.inr (Or.inl h.symm)
      · exact Or.inr (Or.inr (Or.inl h.symm))
      · exact Or.inr (Or.inr (Or.inr (Or.inl h.symm)))
      · exact Or.inr (Or.inr (Or.inr (Or.inr (Or.inl h.symm))))
      · exact Or.inr (Or.inr (Or.inr (Or.inr (Or.inr h.symm))))
    rcases hc6 with rfl | rfl | rfl | rfl | rfl | rfl
    · simp [VALID_TRANSITIONS, dictLookup] at hmem
      rcases hmem with rfl | rfl | rfl | rfl <;> exact ⟨by decide, by decide⟩
    · simp [VALID_TRANSITIONS, dictLookup] at hmem
      rcases hmem with rfl | rfl | rfl <;> exact ⟨by decide, by decide⟩
    · simp [VALID_TRANSITIONS, dictLookup] at hmem
      rcases hmem with rfl | rfl <;> exact ⟨by decide, by decide⟩
    · simp [VALID_TRANSITIONS, dictLookup] at hmem
      rcases hmem with rfl | rfl | rfl <;> exact ⟨by decide, by decide⟩
    · simp [VALID_TRANSITIONS, dictLookup] at hmem
    · simp [VALID_TRANSITIONS, dictLookup] at hmem

/-- Folding any sequence of candidates through the validator keeps a
non-`processing` tabled status away from `processing`. -/
theorem runTransitions_inv (init : String) (cands : List String)
    (hc : ¬ init = "processing")
    (hk : VALID_TRANSITIONS.any (fun p => p.1 == init) = true) :
    ¬ runTransitions init cands = "processing" ∧
    VALID_TRANSITIONS.any (fun p => p.1 == runTransitions init cands) = true := by
  induction cands generalizing init with
  | nil => exact ⟨hc, hk⟩
  | cons n rest ih =>
    have step := applyValid_step init n hc hk
    simpa [runTransitions, List.foldl_cons] using
      ih (applyValid init n) step.1 step.2

/-- C5.  The validator rejects `processing` as the next status from every
status that has left it (the five non-terminal non-`processing` table
entries; `cancelled` rejects everything), and consequently no sequence of
validated transitions ever brings a tabled non-`processing` status back
to `processing`. -/
theorem no_return_to_processing :
    (∀ c ∈ ["pending_ship", "shipped", "completed", "refunding", "refund_cancelled"],
      _is_valid_status_transition c "processing" = false) ∧
    (∀ init cands, ¬ init = "processing" →
      VALID_TRANSITIONS.any (fun p => p.1 == init) = true →
      ¬ runTransitions init cands = "processing") :=
  ⟨by decide, fun init cands hc hk => (runTransitions_inv init cands hc hk).1⟩

theorem no_return_to_processing_witness :
    _is_valid_status_transition "shipped" "processing" = false ∧
    ¬ runTransitions "refunding" ["processing", "completed"] = "processing" :=
  ⟨no_return_to_processing.1 "shipped" (by decide),
   no_return_to_processing.2 "refunding" ["processing", "completed"] (by decide) (by decide)⟩

/-- C8.  Every storage read and every storage commit inside
`update_order_status` consumes at most 3 gateway attempts; the sleeps of
each retry loop are the linearly increasing prefix `[1]` or `[1, 2]`
deciseconds (0.1·1s, 0.1·2s); and when the commit loop is entered while
every upsert attempt raises, the call returns `false` with the state —
history included — unchanged. -/
theorem update_retry_discipline
    (fGet : Nat → Except Unit (Option OrderRec)) (fUpsert : Nat → Except Unit Bool)
    (s : HandlerState) (order_id new_status cookie_id context : String) (now : Nat) :
    (update_order_status fGet fUpsert s order_id new_status cookie_id context now).readAttempts ≤ 3 ∧
    (update_order_status fGet fUpsert s order_id new_status cookie_id context now).writeAttempts ≤ 3 ∧
    ((update_order_status fGet fUpsert s order_id new_status cookie_id context now).readSleeps = [] ∨
     (update_order_status fGet fUpsert s order_id new_status cookie_id context now).readSleeps = [1] ∨
     (update_order_status fGet fUpsert s order_id new_status cookie_id context now).readSleeps = [1, 2]) ∧
    ((update_order_status fGet fUpsert s order_id new_status cookie_id context now).writeSleeps = [] ∨
     (update_order_status fGet fUpsert s order_id new_status cookie_id context now).writeSleeps = [1] ∨
     (update_order_status fGet fUpsert s order_id new_status cookie_id context now).writeSleeps = [1, 2]) ∧
    ((∀ k, fUpsert k = .error ()) →
      1 ≤ (update_order_status fGet fUpsert s order_id new_status cookie_id context now).writeAttempts →
      (update_order_status fGet fUpsert s order_id new_status cookie_id context now).ok = false ∧
      (update_order_status fGet fUpsert s order_id new_status cookie_id context now).state = s) := by
  rcases hgo : retry3 fGet with ⟨go, ga, gs⟩
  rcases huo : retry3 fUpsert with ⟨uo, ua, us⟩
  have hga : ga ≤ 3 := by
    have := retry3_attempts_le fGet; rw [hgo] at this; exact this
  have hgs : gs = [] ∨ gs = [1] ∨ gs = [1, 2] := by
    have := retry3_sleeps_shape fGet; rw [hgo] at this; exact this
  have hua : ua ≤ 3 := by
    have := retry3_attempts_le fUpsert; rw [huo] at this; exact this
  have hus : us = [] ∨ us = [1] ∨ us = [1, 2] := by
    have := retry3_sleeps_shape fUpsert; rw [huo] at this; exact this
  have hwf : (∀ k, fUpsert k = .error ()) → uo = none := by
    intro hfail
    have := retry3_all_fail fUpsert hfail
    rw [huo] at this
    exact congrArg (fun p => p.1) this
  unfold update_order_status
  rw [hgo, huo]
  by_cases hsm : (status_mapping.any (fun p => p.1 == new_status)) = true
  · simp only [hsm, not_true_eq_false, if_false]
    cases go with
    | none => simp [hga, hgs]
    | some cur =>
      cases cur with
      | none => simp [hga, hgs, ORDER_STATUS_HANDLER_CONFIG]
      | some orec =>
        by_cases hsame : (orec.order_status.getD "processing" == new_status) = true
        · simp [hsame, hga, hgs]
        · simp only [hsame, Bool.false_eq_true, if_false]
          by_cases hval : _is_valid_status_transition (orec.order_status.getD "processing") new_status = true
          · simp only [ORDER_STATUS_HANDLER_CONFIG, hval, not_true_eq_false, Bool.and_false,
              Bool.false_eq_true, if_false]
            cases uo with
            | none =>
              simp [hga, hgs, hua, hus]
            | some success =>
              cases success with
              | false =>
                simp only []
                refine ⟨hga, hua, hgs, hus, ?_⟩
                intro hfail _
                exact absurd (hwf hfail) (by simp)
              | true =>
                simp only []
                refine ⟨hga, hua, hgs, hus, ?_⟩
                intro hfail _
                exact absurd (hwf hfail) (by simp)
          · simp [hval, hga, hgs, ORDER_STATUS_HANDLER_CONFIG]
  · simp [hsm]

theorem update_retry_discipline_witness :
    (update_order_status cFGetRefunding cFUpFail initState "o1" "cancelled" "c" "" 0).ok = false ∧
    (update_order_status cFGetRefunding cFUpFail initState "o1" "cancelled" "c" "" 0).state = initState :=
  (update_retry_discipline cFGetRefunding cFUpFail initState "o1" "cancelled" "c" "" 0).2.2.2.2
    (fun _ => rfl) (by decide)

/- ===================== dictionary lemmas for the cache ===================== -/

theorem dictPop_sublist {α : Type} (l : List (String × α)) (k : String) :
    (dictPop l k).Sublist l := by
  induction l with
  | nil => simp [dictPop]
  | cons p rest ih =>
    rcases p with ⟨k2, v⟩
    unfold dictPop
    by_cases h : (k2 == k) = true
    · rw [if_pos h]
      exact List.sublist_cons_self _ _
    · rw [if_neg h]
      exact ih.cons₂ _

theorem dictLookup_eq_none_of_not_mem {α : Type} (l : List (String × α)) (k : String)
    (h : k ∉ l.map Prod.fst) : dictLookup l k = none := by
  induction l with
  | nil => rfl
  | cons p rest ih =>
    rcases p with ⟨k2, v⟩
    simp only [List.map_cons, List.mem_cons, not_or] at h
    have hbeq : (k2 == k) = false := by
      simp only [beq_eq_false_iff_ne, ne_eq]
      exact fun e => h.1 e.symm
    unfold dictLookup
    rw [hbeq]
    simp only [Bool.false_eq_true, if_false]
    exact ih h.2

theorem dictLookup_dictPop_self {α : Type} (l : List (String × α)) (k : String)
    (hnd : (l.map Prod.fst).Nodup) : dictLookup (dictPop l k) k = none := by
  induction l with
  | nil => rfl
  | cons p rest ih =>
    rcases p with ⟨k2, v⟩
    rw [List.map_cons] at hnd
    have hnd2 := List.nodup_cons.mp hnd
    unfold dictPop
    by_cases h : (k2 == k) = true
    · rw [if_pos h]
      have hk : k2 = k := by simpa using h
      subst hk
      exact dictLookup_eq_none_of_not_mem _ _ hnd2.1
    · rw [if_neg h]
      unfold dictLookup
      rw [if_neg h]
      exact ih hnd2.2

theorem dictPop_nodup {α : Type} (l : List (String × α)) (k : String)
    (hnd : (l.map Prod.fst).Nodup) : ((dictPop l k).map Prod.fst).Nodup :=
  hnd.sublist ((dictPop_sublist l k).map Prod.fst)

theorem dictLookup_dictPop_none {α : Type} (l : List (String × α)) (k k2 : String)
    (h : dictLookup l k = none) : dictLookup (dictPop l k2) k = none := by
  induction l with
  | nil => rfl
  | cons p rest ih =>
    rcases p with ⟨k3, v⟩
    unfold dictLookup at h
    by_cases hh : (k3 == k) = true
    · rw [if_pos hh] at h; cases h
    · rw [if_neg hh] at h
      unfold dictPop
      by_cases h2 : (k3 == k2) = true
      · rw [if_pos h2]; exact h
      · rw [if_neg h2]
        unfold dictLookup
        rw [if_neg hh]
        exact ih h

theorem dictLookup_foldl_pop_none {α : Type} (ks : List String) (l : List (String × α))
    (k : String) (h : dictLookup l k = none) :
    dictLookup (ks.foldl dictPop l) k = none := by
  induction ks generalizing l with
  | nil => exact h
  | cons k2 rest ih =>
    simp only [List.foldl_cons]
    exact ih _ (dictLookup_dictPop_none l k k2 h)

theorem dictLookup_foldl_pop_mem {α : Type} (ks : List String) (l : List (String × α))
    (k : String) (hnd : (l.map Prod.fst).Nodup) (hk : k ∈ ks) :
    dictLookup (ks.foldl dictPop l) k = none := by
  induction ks generalizing l with
  | nil => cases hk
  | cons k2 rest ih =>
    simp only [List.foldl_cons]
    rcases List.mem_cons.mp hk with rfl | hmem
    · exact dictLookup_foldl_pop_none rest _ k (dictLookup_dictPop_self l k hnd)
    · exact ih (dictPop l k2) (dictPop_nodup l k2 hnd) hmem

/- ===================== lookup scan lemmas ===================== -/

/-- A hit of the lookup scan always comes from a non-expired entry with a
non-empty order id. -/
theorem lookupGo_some_found (mapping : List (String × MapEntry)) (now : Nat) :
    ∀ ids acc oid accOut, lookupGo mapping now ids acc = (some oid, accOut) →
      ∃ i ∈ ids, ∃ e, dictLookup mapping i = some e ∧
        ¬ now - e.timestamp > chat_order_map_ttl ∧ e.order_id = oid ∧ ¬ oid = "" := by
  intro ids
  induction ids with
  | nil =>
    intro acc oid accOut h
    simp [lookupGo] at h
  | cons id rest ih =>
    intro acc oid accOut h
    unfold lookupGo at h
    cases hd : dictLookup mapping id with
    | none =>
      rw [hd] at h
      dsimp only at h
      obtain ⟨i, hi, e, he⟩ := ih _ _ _ h
      exact ⟨i, List.mem_cons_of_mem _ hi, e, he⟩
    | some e =>
      rw [hd] at h
      dsimp only at h
      by_cases hx : now - e.timestamp > chat_order_map_ttl
      · rw [if_pos hx] at h
        obtain ⟨i, hi, e2, he2⟩ := ih _ _ _ h
        exact ⟨i, List.mem_cons_of_mem _ hi, e2, he2⟩
      · rw [if_neg hx] at h
        by_cases ho : (!e.order_id.isEmpty) = true
        · rw [if_pos ho] at h
          have hoid : e.order_id = oid := Option.some.inj (congrArg Prod.fst h)
          refine ⟨id, List.mem_cons_self id rest, e, hd, hx, hoid, ?_⟩
          have hfalse : e.order_id.isEmpty = false := by simpa using ho
          rw [← hoid]
          intro hcon
          rw [hcon] at hfalse
          cases hfalse
        · rw [if_neg ho] at h
          obtain ⟨i, hi, e2, he2⟩ := ih _ _ _ h
          exact ⟨i, List.mem_cons_of_mem _ hi, e2, he2⟩

/-- When the scan completes without a hit, the collected expired-key list
contains the whole accumulator and every expired identifier met. -/
theorem lookupGo_none_sub (mapping : List (String × MapEntry)) (now : Nat) :
    ∀ ids acc expired, lookupGo mapping now ids acc = (none, expired) →
      (∀ x ∈ acc, x ∈ expired) ∧
      (∀ i ∈ ids, ∀ e, dictLookup mapping i = some e →
        now - e.timestamp > chat_order_map_ttl → i ∈ expired) := by
  intro ids
  induction ids with
  | nil =>
    intro acc expired h
    simp only [lookupGo] at h
    have h2 : acc = expired := congrArg Prod.snd h
    subst h2
    exact ⟨fun x hx => hx, fun i hi => absurd hi (List.not_mem_nil i)⟩
  | cons id rest ih =>
    intro acc expired h
    unfold lookupGo at h
    cases hd : dictLookup mapping id with
    | none =>
      rw [hd] at h
      dsimp only at h
      obtain ⟨hsub, hexp⟩ := ih _ _ h
      refine ⟨hsub, ?_⟩
      intro i hi e he hx
      rcases List.mem_cons.mp hi with rfl | hmem
      · rw [hd] at he; cases he
      · exact hexp i hmem e he hx
    | some e =>
      rw [hd] at h
      dsimp only at h
      by_cases hx : now - e.timestamp > chat_order_map_ttl
      · rw [if_pos hx] at h
        obtain ⟨hsub, hexp⟩ := ih _ _ h
        refine ⟨fun x hxm => hsub x (List.mem_append_left _ hxm), ?_⟩
        intro i hi e2 he2 hx2
        rcases List.mem_cons.mp hi with rfl | hmem
        · exact hsub i (List.mem_append_right _ (by simp))
        · exact hexp i hmem e2 he2 hx2
      · rw [if_neg hx] at h
        by_cases ho : (!e.order_id.isEmpty) = true
        · rw [if_pos ho] at h
          cases congrArg Prod.fst h
        · rw [if_neg ho] at h
          obtain ⟨hsub, hexp⟩ := ih _ _ h
          refine ⟨hsub, ?_⟩
          intro i hi e2 he2 hx2
          rcases List.mem_cons.mp hi with rfl | hmem
          · rw [hd] at he2
            cases he2
            exact absurd hx2 hx
          · exact hexp i hmem e2 he2 hx2

/-- C6 (amended).  The lookup never returns an order id from an entry
older than the 48-hour TTL; expired entries met during the scan are
purged when the scan completes without a hit (`none` result), while an
early hit returns with the mapping unchanged, leaving the expired
entries already met in place. -/
theorem lookup_ttl_discipline (identifiers : List String)
    (mapping : List (String × MapEntry)) (now : Nat)
    (hnd : (mapping.map Prod.fst).Nodup) :
    (∀ oid m2, lookupMappingCore identifiers mapping now = (some oid, m2) →
      m2 = mapping ∧
      ∃ i ∈ identifiers, ∃ e, dictLookup mapping i = some e ∧
        ¬ now - e.timestamp > chat_order_map_ttl ∧ e.order_id = oid ∧ ¬ oid = "") ∧
    (∀ m2, lookupMappingCore identifiers mapping now = (none, m2) →
      ∀ i ∈ identifiers, ∀ e, dictLookup mapping i = some e →
        now - e.timestamp > chat_order_map_ttl → dictLookup m2 i = none) := by
  constructor
  · intro oid m2 h
    unfold lookupMappingCore at h
    rcases hgo : lookupGo mapping now identifiers [] with ⟨ro, racc⟩
    rw [hgo] at h
    cases ro with
    | none =>
      dsimp only at h
      exact absurd (congrArg Prod.fst h) (by simp)
    | some r =>
      dsimp only at h
      have hm : mapping = m2 := congrArg Prod.snd h
      have hr : r = oid := Option.some.inj (congrArg Prod.fst h)
      subst hr
      exact ⟨hm.symm, lookupGo_some_found mapping now identifiers [] _ racc hgo⟩
  · intro m2 h i hi e he hx
    unfold lookupMappingCore at h
    rcases hgo : lookupGo mapping now identifiers [] with ⟨ro, racc⟩
    rw [hgo] at h
    cases ro with
    | some r =>
      dsimp only at h
      exact absurd (congrArg Prod.fst h) (by simp)
    | none =>
      dsimp only at h
      have hm : m2 = racc.foldl dictPop mapping := (congrArg Prod.snd h).symm
      subst hm
      have hmem : i ∈ racc :=
        (lookupGo_none_sub mapping now identifiers [] racc hgo).2 i hi e he hx
      exact dictLookup_foldl_pop_mem racc mapping i hnd hmem

theorem lookup_ttl_discipline_witness :
    ((lookupMappingCore ["i1", "i2"] [("i1", ⟨"o1", 0⟩), ("i2", ⟨"o2", 172801⟩)] 172801).2
        = [("i1", ⟨"o1", 0⟩), ("i2", ⟨"o2", 172801⟩)] ∧
      ∃ i ∈ ["i1", "i2"], ∃ e : MapEntry,
        dictLookup [("i1", ⟨"o1", 0⟩), ("i2", ⟨"o2", 172801⟩)] i = some e ∧
        ¬ 172801 - e.timestamp > chat_order_map_ttl ∧ e.order_id = "o2" ∧ ¬ "o2" = "") :=
  (lookup_ttl_discipline ["i1", "i2"] [("i1", ⟨"o1", 0⟩), ("i2", ⟨"o2", 172801⟩)] 172801
      (by decide)).1 "o2" [("i1", ⟨"o1", 0⟩), ("i2", ⟨"o2", 172801⟩)] (by decide)

/-- C6 counterexample: with identifiers scanned as `[i1, i2]`, where
`i1`'s cache entry is 172801 seconds old (past the 48h TTL) and `i2`'s is
fresh, the lookup returns `i2`'s order id but leaves the expired `i1`
entry in the cache — the early `return` skips the purge loop, refuting
"expired entries encountered during the lookup are removed". -/
theorem lookup_skips_purge_on_hit :
    (lookupMappingCore ["i1", "i2"]
        [("i1", ⟨"o1", 0⟩), ("i2", ⟨"o2", 172801⟩)] 172801).1 = some "o2" ∧
    dictLookup (lookupMappingCore ["i1", "i2"]
        [("i1", ⟨"o1", 0⟩), ("i2", ⟨"o2", 172801⟩)] 172801).2 "i1" = some ⟨"o1", 0⟩ ∧
    172801 - (0 : Nat) > chat_order_map_ttl :=
  ⟨by decide, by decide, by decide⟩

/- ===================== extraction safety lemmas ===================== -/

theorem takeWhile_all_holds (p : Char → Bool) (l : List Char) :
    (l.takeWhile p).all p = true := by
  induction l with
  | nil => rfl
  | cons c rest ih =>
    unfold List.takeWhile
    cases hp : p c with
    | false => rfl
    | true => simp [hp, ih]

theorem patLitDigits_post (lit : List Char) (minLen : Nat) (l r : List Char)
    (h : patLitDigits lit minLen l = some r) :
    r.all Char.isDigit = true ∧ minLen ≤ r.length := by
  unfold patLitDigits at h
  cases hd : dropLit lit l with
  | none => rw [hd] at h; cases h
  | some rest =>
    rw [hd] at h
    dsimp only [Option.bind_eq_bind, Option.some_bind] at h
    by_cases hlen : minLen ≤ (rest.takeWhile Char.isDigit).length
    · rw [if_pos hlen] at h
      cases h
      exact ⟨takeWhile_all_holds _ _, hlen⟩
    · rw [if_neg hlen] at h
      cases h

theorem patLitSepDigits_post (lit : List Char) (minLen : Nat) (l r : List Char)
    (h : patLitSepDigits lit minLen l = some r) :
    r.all Char.isDigit = true ∧ minLen ≤ r.length := by
  unfold patLitSepDigits at h
  cases hd : dropLit lit l with
  | none => rw [hd] at h; cases h
  | some rest =>
    rw [hd] at h
    dsimp only [Option.bind_eq_bind, Option.some_bind] at h
    split at h
    · split at h
      · cases h
        exact ⟨takeWhile_all_holds _ _, by assumption⟩
      · cases h
    · split at h
      · cases h
        exact ⟨takeWhile_all_holds _ _, by assumption⟩
      · cases h
    · cases h

theorem patQuotedIdDigits_post (l r : List Char)
    (h : patQuotedIdDigits l = some r) :
    r.all Char.isDigit = true ∧ 10 ≤ r.length := by
  unfold patQuotedIdDigits at h
  cases hd : dropLit ['"', 'i', 'd', '"'] l with
  | none => rw [hd] at h; cases h
  | some r1 =>
    rw [hd] at h
    dsimp only [Option.bind_eq_bind, Option.some_bind] at h
    split at h
    · split at h
      · cases h
        exact ⟨takeWhile_all_holds _ _, by assumption⟩
      · cases h
    · cases h

theorem findFirst_post (P : List Char → Prop) (pat : List Char → Option (List Char))
    (hpat : ∀ l2 r2, pat l2 = some r2 → P r2) :
    ∀ l r, findFirst l pat = some r → P r := by
  intro l
  induction l with
  | nil =>
    intro r h
    unfold findFirst at h
    exact hpat [] r h
  | cons c rest ih =>
    intro r h
    unfold findFirst at h
    cases hp : pat (c :: rest) with
    | none =>
      rw [hp] at h
      dsimp only at h
      exact ih r h
    | some r2 =>
      rw [hp] at h
      dsimp only at h
      cases h
      exact hpat _ _ hp

theorem findFirst_first (pat : List Char → Option (List Char)) :
    ∀ l r, findFirst l pat = some r →
      ∃ n, pat (l.drop n) = some r ∧ ∀ k, k < n → pat (l.drop k) = none := by
  intro l
  induction l with
  | nil =>
    intro r h
    unfold findFirst at h
    exact ⟨0, h, fun k hk => absurd hk (Nat.not_lt_zero k)⟩
  | cons c rest ih =>
    intro r h
    unfold findFirst at h
    cases hp : pat (c :: rest) with
    | none =>
      rw [hp] at h
      dsimp only at h
      obtain ⟨n, hn, hmin⟩ := ih r h
      refine ⟨n + 1, by simpa using hn, ?_⟩
      intro k hk
      cases k with
      | zero => simpa using hp
      | succ k2 =>
        have : k2 < n := Nat.lt_of_succ_lt_succ hk
        simpa using hmin k2 this
    | some r2 =>
      rw [hp] at h
      dsimp only at h
      cases h
      exact ⟨0, hp, fun k hk => absurd hk (Nat.not_lt_zero k)⟩

theorem extractMethod3_post (t s : String) (h : extractMethod3 t = some s) :
    10 ≤ s.length ∧ s.data.all Char.isDigit = true := by
  unfold extractMethod3 at h
  have hds : ∃ ds, (ds.all Char.isDigit = true ∧ 10 ≤ ds.length) ∧ s = String.mk ds := by
    cases h1 : findFirst t.data (patLitSepDigits "orderId".data 10) with
    | some ds =>
      rw [h1] at h
      dsimp only [Option.map_some] at h
      exact ⟨ds, findFirst_post _ _ (fun l2 r2 hp => patLitSepDigits_post _ _ _ _ hp)
        _ _ h1, (Option.some.inj h).symm⟩
    | none =>
      rw [h1] at h
      cases h2 : findFirst t.data (patLitDigits "order_detail?id=".data 10) with
      | some ds =>
        rw [h2] at h
        dsimp only [Option.map_some] at h
        exact ⟨ds, findFirst_post _ _ (fun l2 r2 hp => patLitDigits_post _ _ _ _ hp)
          _ _ h2, (Option.some.inj h).symm⟩
      | none =>
        rw [h2] at h
        cases h3 : findFirst t.data patQuotedIdDigits with
        | some ds =>
          rw [h3] at h
          dsimp only [Option.map_some] at h
          exact ⟨ds, findFirst_post _ _ (fun l2 r2 hp => patQuotedIdDigits_post _ _ hp)
            _ _ h3, (Option.some.inj h).symm⟩
        | none =>
          rw [h3] at h
          cases h4 : findFirst t.data (patLitSepDigits "bizOrderId".data 10) with
          | some ds =>
            rw [h4] at h
            dsimp only [Option.map_some] at h
            exact ⟨ds, findFirst_post _ _ (fun l2 r2 hp => patLitSepDigits_post _ _ _ _ hp)
              _ _ h4, (Option.some.inj h).symm⟩
          | none => rw [h4] at h; cases h
  obtain ⟨ds, ⟨hall, hlen⟩, rfl⟩ := hds
  exact ⟨hlen, hall⟩

theorem urlSearch_post (v : PyVal) (lit : List Char) (minLen : Nat) (str : String)
    (h : urlSearch v (patLitDigits lit minLen) = .ok (some str)) :
    str.data.all Char.isDigit = true ∧ minLen ≤ str.length := by
  unfold urlSearch at h
  match v, h with
  | .pstr s, h =>
    dsimp only at h
    by_cases hemp : s.isEmpty = true
    · rw [if_pos hemp] at h
      cases h
    · rw [if_neg hemp] at h
      have h2 : (findFirst s.data (patLitDigits lit minLen)).map String.mk = some str :=
        Except.ok.inj h
      cases hf : findFirst s.data (patLitDigits lit minLen) with
      | none => rw [hf] at h2; cases h2
      | some ds =>
        rw [hf, Option.map_some'] at h2
        cases h2
        have := findFirst_post _ _ (fun l2 r2 hp => patLitDigits_post lit minLen l2 r2 hp)
          _ _ hf
        exact ⟨this.1, this.2⟩
  | .pnone, h => dsimp only [pyTruthy] at h; cases h
  | .pbool b, h =>
    cases b <;> dsimp only [pyTruthy] at h
    · cases h
    · cases h
  | .pint n, h =>
    by_cases hn : (n != 0) = true
    · dsimp only [pyTruthy] at h; rw [if_pos hn] at h; cases h
    · dsimp only [pyTruthy] at h; rw [if_neg hn] at h; cases h
  | .plist l2, h =>
    by_cases hn : (!l2.isEmpty) = true
    · dsimp only [pyTruthy] at h; rw [if_pos hn] at h; cases h
    · dsimp only [pyTruthy] at h; rw [if_neg hn] at h; cases h
  | .pdict l2, h =>
    by_cases hn : (!l2.isEmpty) = true
    · dsimp only [pyTruthy] at h; rw [if_pos hn] at h; cases h
    · dsimp only [pyTruthy] at h; rw [if_neg hn] at h; cases h

theorem except_bind_ok {α β : Type} (x : Except Unit α) (f : α → Except Unit β) (b : β)
    (h : (x >>= f) = .ok b) : ∃ a, x = .ok a ∧ f a = .ok b := by
  cases x with
  | ok a => exact ⟨a, rfl, h⟩
  | error e => exact absurd h (by simp [Bind.bind, Except.bind])

theorem extractMethod1_post (content : PyVal) (str : String)
    (h : extractMethod1 content = .ok (some str)) :
    str.data.all Char.isDigit = true ∧ 1 ≤ str.length := by
  unfold extractMethod1 at h
  obtain ⟨dx, _, h⟩ := except_bind_ok _ _ _ h
  obtain ⟨item, _, h⟩ := except_bind_ok _ _ _ h
  obtain ⟨main, _, h⟩ := except_bind_ok _ _ _ h
  obtain ⟨exc, _, h⟩ := except_bind_ok _ _ _ h
  obtain ⟨btn, _, h⟩ := except_bind_ok _ _ _ h
  obtain ⟨tu, _, h⟩ := except_bind_ok _ _ _ h
  obtain ⟨r1, hr1, h⟩ := except_bind_ok _ _ _ h
  cases r1 with
  | some oid =>
    dsimp only at h
    have : oid = str := by
      have := Except.ok.inj h
      exact Option.some.inj this
    subst this
    exact urlSearch_post tu _ 1 oid hr1
  | none =>
    dsimp only at h
    obtain ⟨mtu, _, h⟩ := except_bind_ok _ _ _ h
    exact urlSearch_post mtu _ 1 str h

theorem extractMethod2_post (content : PyVal) (str : String)
    (h : extractMethod2 content = .ok (some str)) :
    str.data.all Char.isDigit = true ∧ 1 ≤ str.length := by
  unfold extractMethod2 at h
  obtain ⟨dyn, _, h⟩ := except_bind_ok _ _ _ h
  obtain ⟨chg, _, h⟩ := except_bind_ok _ _ _ h
  obtain ⟨dx, _, h⟩ := except_bind_ok _ _ _ h
  obtain ⟨item, _, h⟩ := except_bind_ok _ _ _ h
  obtain ⟨main, _, h⟩ := except_bind_ok _ _ _ h
  obtain ⟨exc, _, h⟩ := except_bind_ok _ _ _ h
  obtain ⟨btn, _, h⟩ := except_bind_ok _ _ _ h
  obtain ⟨tu, _, h⟩ := except_bind_ok _ _ _ h
  exact urlSearch_post tu _ 1 str h

theorem ne_empty_of_one_le_len (s : String) (h : 1 ≤ s.length) : ¬ s = "" := by
  intro he
  subst he
  exact absurd h (by decide)

theorem extract_order_id_digits (m : PyVal) (s : String)
    (h : extract_order_id m = some s) :
    ¬ s = "" ∧ s.data.all Char.isDigit = true := by
  unfold extract_order_id at h
  cases m with
  | pnone => cases h
  | pbool b => cases h
  | pint n => cases h
  | pstr t => cases h
  | plist l => cases h
  | pdict items =>
    dsimp only at h
    cases hcjs : contentJsonOf ((dictLookup items "1").getD (.pdict [])) with
    | none =>
      rw [hcjs] at h
      dsimp only at h
      have := extractMethod3_post _ _ h
      exact ⟨ne_empty_of_one_le_len s (Nat.le_trans (by decide) this.1), this.2⟩
    | some content =>
      rw [hcjs] at h
      dsimp only at h
      cases hm1 : extractMethod1 content with
      | ok r1 =>
        rw [hm1] at h
        dsimp only at h
        cases r1 with
        | some oid =>
          dsimp only at h
          have : oid = s := Option.some.inj h
          subst this
          have := extractMethod1_post content oid hm1
          exact ⟨ne_empty_of_one_le_len oid this.2, this.1⟩
        | none =>
          dsimp only at h
          cases hm2 : extractMethod2 content with
          | ok r2 =>
            rw [hm2] at h
            dsimp only at h
            cases r2 with
            | some oid =>
              dsimp only at h
              have : oid = s := Option.some.inj h
              subst this
              have := extractMethod2_post content oid hm2
              exact ⟨ne_empty_of_one_le_len oid this.2, this.1⟩
            | none =>
              dsimp only at h
              have := extractMethod3_post _ _ h
              exact ⟨ne_empty_of_one_le_len s (Nat.le_trans (by decide) this.1), this.2⟩
          | error e =>
            rw [hm2] at h
            dsimp only at h
            have := extractMethod3_post _ _ h
            exact ⟨ne_empty_of_one_le_len s (Nat.le_trans (by decide) this.1), this.2⟩
      | error e =>
        rw [hm1] at h
        dsimp only at h
        cases hm2 : extractMethod2 content with
        | ok r2 =>
          rw [hm2] at h
          dsimp only at h
          cases r2 with
          | some oid =>
            dsimp only at h
            have : oid = s := Option.some.inj h
            subst this
            have := extractMethod2_post content oid hm2
            exact ⟨ne_empty_of_one_le_len oid this.2, this.1⟩
          | none =>
            dsimp only at h
            have := extractMethod3_post _ _ h
            exact ⟨ne_empty_of_one_le_len s (Nat.le_trans (by decide) this.1), this.2⟩
        | error e =>
          rw [hm2] at h
          dsimp only at h
          have := extractMethod3_post _ _ h
          exact ⟨ne_empty_of_one_le_len s (Nat.le_trans (by decide) this.1), this.2⟩

theorem extract_order_id_nondict (m : PyVal) (h : m.isDict = false) :
    extract_order_id m = none := by
  cases m <;> first | rfl | (cases h)

/-- C9.  `extract_order_id` is a total function on arbitrary payload trees
(the source absorbs every structural failure and returns `None`), and
whenever it produces an order id, that id is a non-empty all-digit
string; the last-resort textual scan only accepts runs of at least 10
digits, and the scan takes the match at the leftmost position (first
match); a payload that is not even a dict yields `none`. -/
theorem extract_order_id_total_guarded :
    (∀ (m : PyVal) (s : String), extract_order_id m = some s →
      ¬ s = "" ∧ s.data.all Char.isDigit = true) ∧
    (∀ (t s : String), extractMethod3 t = some s →
      10 ≤ s.length ∧ s.data.all Char.isDigit = true) ∧
    (∀ (l : List Char) (pat : List Char → Option (List Char)) (r : List Char),
      findFirst l pat = some r →
      ∃ n, pat (l.drop n) = some r ∧ ∀ k, k < n → pat (l.drop k) = none) ∧
    (∀ (m : PyVal), m.isDict = false → extract_order_id m = none) :=
  ⟨extract_order_id_digits, extractMethod3_post,
   fun l pat r h => findFirst_first pat l r h, extract_order_id_nondict⟩

theorem extract_order_id_total_guarded_witness :
    (¬ "12345678901" = "" ∧ "12345678901".data.all Char.isDigit = true) ∧
    (10 ≤ "12345678901".length ∧ "12345678901".data.all Char.isDigit = true) ∧
    (∃ n, patLitSepDigits "orderId".data 10 ("xorderId:12345678901yz".data.drop n)
        = some "12345678901".data ∧
      ∀ k, k < n → patLitSepDigits "orderId".data 10 ("xorderId:12345678901yz".data.drop k) = none) ∧
    extract_order_id (.pstr "orderId:12345678901") = none :=
  ⟨extract_order_id_total_guarded.1 (.pdict [("1", .pstr "xorderId:12345678901yz")])
     "12345678901" (by rfl),
   extract_order_id_total_guarded.2.1 "xorderId:12345678901yz" "12345678901" (by rfl),
   extract_order_id_total_guarded.2.2.1 "xorderId:12345678901yz".data
     (patLitSepDigits "orderId".data 10) "12345678901".data (by rfl),
   extract_order_id_total_guarded.2.2.2 (.pstr "orderId:12345678901") (by rfl)⟩

/- ===================== C3: handle_system_message return value ===================== -/

/-- C3 (amended).  `handle_system_message` returns `false` exactly when
the classification cascade produced nothing (or raised); whenever a
heuristic matched, it returns `true` — the order id is either resolved
(and a commit attempted, whether or not that commit succeeds or even
mutates anything) or the update is deferred under a placeholder.  So
`true` does not imply a commit or a defer happened. -/
theorem handle_system_message_bool
    (fGet : Nat → Except Unit (Option OrderRec)) (fUpsert : Nat → Except Unit Bool)
    (s : HandlerState) (message : PyVal) (send_message cookie_id msg_time : String)
    (now : Nat) (uuid_hex : String) :
    ((classify_system_message message send_message = .ok none ∨
      classify_system_message message send_message = .error ()) →
      handle_system_message fGet fUpsert s message send_message cookie_id msg_time now uuid_hex
        = ⟨false, s, none, false⟩) ∧
    (∀ st, classify_system_message message send_message = .ok (some st) →
      (handle_system_message fGet fUpsert s message send_message cookie_id msg_time now uuid_hex).ok
        = true) := by
  constructor
  · intro hc
    unfold handle_system_message
    rcases hc with hc | hc <;> rw [hc]
  · intro st hc
    unfold handle_system_message
    rw [hc]
    dsimp only
    cases hx : extract_order_id message with
    | some oid => rfl
    | none =>
      rcases hl : _lookup_order_id_by_message s message cookie_id now with ⟨lo, s1⟩
      cases lo with
      | some oid => rfl
      | none => simp [ORDER_STATUS_HANDLER_CONFIG]

/-- The payload of the C3 counterexample: classification hits the literal
table (`[你已发货]` → `shipped`), the id `1234567890` is extracted via the
textual scan, and the persisted status is `cancelled`, so the commit
attempt is rejected by validation. -/
def cms : PyVal := .pdict [("1", .pstr "orderId=1234567890")]

def cFGetCancelled : Nat → Except Unit (Option OrderRec) :=
  fun _ => .ok (some ⟨some "cancelled", "c"⟩)

/-- C3 counterexample: this call classifies successfully, resolves an
order id, and the commit attempt is rejected by transition validation
(`cancelled` is terminal) — no status is written (zero write attempts),
nothing is deferred, history and the pending queues stay empty — yet the
function returns `true`, refuting "a call that neither commits a status
nor defers an update returns false". -/
theorem handle_true_without_mutation :
    (handle_system_message cFGetCancelled cFUpOk initState cms "[你已发货]" "acc" "t" 0 "u").ok
      = true ∧
    (handle_system_message cFGetCancelled cFUpOk initState cms "[你已发货]" "acc" "t" 0 "u").deferred
      = false ∧
    ((handle_system_message cFGetCancelled cFUpOk initState cms "[你已发货]" "acc" "t" 0 "u").upd.map
      (fun u => u.writeAttempts)) = some 0 ∧
    ((handle_system_message cFGetCancelled cFUpOk initState cms "[你已发货]" "acc" "t" 0 "u").upd.map
      (fun u => u.ok)) = some false ∧
    (handle_system_message cFGetCancelled cFUpOk initState cms "[你已发货]" "acc" "t" 0 "u").state.pending_updates
      = [] ∧
    (handle_system_message cFGetCancelled cFUpOk initState cms "[你已发货]" "acc" "t" 0 "u").state.pending_system_messages
      = [] ∧
    (handle_system_message cFGetCancelled cFUpOk initState cms "[你已发货]" "acc" "t" 0 "u").state.order_status_history
      = [] :=
  ⟨rfl, rfl, rfl, rfl, rfl, rfl, rfl⟩

theorem handle_system_message_bool_witness :
    handle_system_message cFGetCancelled cFUpOk initState (.pdict []) "hello" "acc" "t" 0 "u"
      = ⟨false, initState, none, false⟩ ∧
    (handle_system_message cFGetCancelled cFUpOk initState cms "[你已发货]" "acc" "t" 0 "u").ok
      = true :=
  ⟨(handle_system_message_bool cFGetCancelled cFUpOk initState (.pdict []) "hello"
      "acc" "t" 0 "u").1 (Or.inl (by rfl)),
   (handle_system_message_bool cFGetCancelled cFUpOk initState cms "[你已发货]"
      "acc" "t" 0 "u").2 "shipped" (by rfl)⟩

/- ===================== C7: draining pending notifications ===================== -/

theorem dictLookup_map_set {α : Type} (l : List (String × α)) (k : String) (v : α)
    (hany : l.any (fun p => p.1 == k) = true) :
    dictLookup (l.map (fun p => if p.1 == k then (k, v) else p)) k = some v := by
  induction l with
  | nil => cases hany
  | cons p rest ih =>
    rcases p with ⟨k2, v2⟩
    simp only [List.map_cons]
    by_cases h2 : (k2 == k) = true
    · rw [show (if (k2, v2).1 == k then (k, v) else (k2, v2)) = (k, v) from by simp [h2]]
      unfold dictLookup
      simp
    · rw [show (if (k2, v2).1 == k then (k, v) else (k2, v2)) = (k2, v2) from by simp [h2]]
      unfold dictLookup
      rw [if_neg h2]
      apply ih
      simp only [List.any_cons, Bool.or_eq_true] at hany
      rcases hany with h | h
      · exact absurd h h2
      · exact h

theorem dictLookup_append_new {α : Type} (l : List (String × α)) (k : String) (v : α) :
    dictLookup (l ++ [(k, v)]) k = (dictLookup l k).orElse (fun _ => some v) := by
  induction l with
  | nil => simp [dictLookup]
  | cons p rest ih =>
    rcases p with ⟨k2, v2⟩
    by_cases h2 : (k2 == k) = true
    · simp [dictLookup, h2]
    · simp only [List.cons_append]
      unfold dictLookup
      rw [if_neg h2, if_neg h2]
      exact ih

theorem dictLookup_dictSet_self {α : Type} (l : List (String × α)) (k : String) (v : α) :
    dictLookup (dictSet l k v) k = some v := by
  unfold dictSet
  by_cases hany : l.any (fun p => p.1 == k) = true
  · rw [if_pos hany]
    exact dictLookup_map_set l k v hany
  · rw [if_neg hany]
    rw [dictLookup_append_new]
    have hnone : dictLookup l k = none := by
      apply dictLookup_eq_none_of_not_mem
      intro hm
      apply hany
      rw [List.any_eq_true]
      obtain ⟨p, hp, hfst⟩ := List.mem_map.mp hm
      exact ⟨p, hp, by simp [hfst]⟩
    rw [hnone]
    rfl

theorem dictSet_nodup {α : Type} (l : List (String × α)) (k : String) (v : α)
    (hnd : (l.map Prod.fst).Nodup) : ((dictSet l k v).map Prod.fst).Nodup := by
  unfold dictSet
  by_cases hany : l.any (fun p => p.1 == k) = true
  · rw [if_pos hany]
    have heq : (l.map (fun p => if p.1 == k then (k, v) else p)).map Prod.fst
        = l.map Prod.fst := by
      rw [List.map_map]
      apply List.map_congr_left
      intro p _
      by_cases hp : (p.1 == k) = true
      · simp only [Function.comp_apply, if_pos hp]
        exact (eq_of_beq hp).symm
      · simp only [Function.comp_apply, if_neg hp]
    rw [heq]
    exact hnd
  · rw [if_neg hany]
    rw [List.map_append]
    rw [List.nodup_append]
    refine ⟨hnd, by simp, ?_⟩
    intro a ha hb
    simp only [List.map_cons, List.map_nil, List.mem_singleton] at hb
    subst hb
    apply hany
    rw [List.any_eq_true]
    obtain ⟨p, hp, hfst⟩ := List.mem_map.mp ha
    exact ⟨p, hp, by simp [hfst]⟩

theorem findHashFrom_some {α : Type} (hashOf : α → String) (q : List α) (h : String) :
    ∀ n i, findHashFrom hashOf q h n = some i →
      i < n ∧ (∃ x, q.get? i = some x ∧ hashOf x = h) ∧
        ∀ j, i < j → j < n → ∀ y, q.get? j = some y → ¬ hashOf y = h := by
  intro n
  induction n with
  | zero => intro i hi; cases hi
  | succ m ih =>
    intro i hi
    unfold findHashFrom at hi
    cases hq : q.get? m with
    | none =>
      rw [hq] at hi
      dsimp only at hi
      obtain ⟨hlt, hx, hmax⟩ := ih i hi
      refine ⟨Nat.lt_succ_of_lt hlt, hx, ?_⟩
      intro j hij hjm y hy hcon
      rcases Nat.lt_succ_iff_lt_or_eq.mp hjm with hj | rfl
      · exact hmax j hij hj y hy hcon
      · rw [hq] at hy; cases hy
    | some x =>
      rw [hq] at hi
      dsimp only at hi
      by_cases hh : (hashOf x == h) = true
      · rw [if_pos hh] at hi
        have hmi : m = i := Option.some.inj hi
        subst hmi
        refine ⟨Nat.lt_succ_self m, ⟨x, hq, by simpa using hh⟩, ?_⟩
        intro j hij hjm
        exact absurd (Nat.lt_of_lt_of_le hij (Nat.le_of_lt_succ hjm)) (Nat.lt_irrefl m)
      · rw [if_neg hh] at hi
        obtain ⟨hlt, hx2, hmax⟩ := ih i hi
        refine ⟨Nat.lt_succ_of_lt hlt, hx2, ?_⟩
        intro j hij hjm y hy hcon
        rcases Nat.lt_succ_iff_lt_or_eq.mp hjm with hj | rfl
        · exact hmax j hij hj y hy hcon
        · rw [hq] at hy
          have hxy : x = y := Option.some.inj hy
          subst hxy
          exact hh (by simp [hcon])

theorem findHashFrom_none {α : Type} (hashOf : α → String) (q : List α) (h : String) :
    ∀ n, findHashFrom hashOf q h n = none →
      ∀ j, j < n → ∀ y, q.get? j = some y → ¬ hashOf y = h := by
  intro n
  induction n with
  | zero => intro _ j hj; exact absurd hj (Nat.not_lt_zero j)
  | succ m ih =>
    intro hi j hj y hy hcon
    unfold findHashFrom at hi
    cases hq : q.get? m with
    | none =>
      rw [hq] at hi
      dsimp only at hi
      rcases Nat.lt_succ_iff_lt_or_eq.mp hj with hj2 | rfl
      · exact ih hi j hj2 y hy hcon
      · rw [hq] at hy; cases hy
    | some x =>
      rw [hq] at hi
      dsimp only at hi
      by_cases hh : (hashOf x == h) = true
      · rw [if_pos hh] at hi; cases hi
      · rw [if_neg hh] at hi
        rcases Nat.lt_succ_iff_lt_or_eq.mp hj with hj2 | rfl
        · exact ih hi j hj2 y hy hcon
        · rw [hq] at hy
          have hxy : x = y := Option.some.inj hy
          subst hxy
          exact hh (by simp [hcon])

/-- `_store_chat_order_mapping` touches only the chat↔order map. -/
theorem store_chat_fields (s : HandlerState) (oid cid : String) (m : PyVal) (now : Nat) :
    (_store_chat_order_mapping s oid cid m now).pending_updates = s.pending_updates ∧
    (_store_chat_order_mapping s oid cid m now).pending_system_messages
      = s.pending_system_messages ∧
    (_store_chat_order_mapping s oid cid m now).pending_red_reminder_messages
      = s.pending_red_reminder_messages ∧
    (_store_chat_order_mapping s oid cid m now).order_status_history
      = s.order_status_history := by
  unfold _store_chat_order_mapping
  dsimp only
  repeat' split
  all_goals exact ⟨rfl, rfl, rfl, rfl⟩

/-- `_record_status_history` touches only the history map. -/
theorem record_history_fields (s : HandlerState) (oid f t c : String) (now : Nat) :
    (_record_status_history s oid f t c now).pending_updates = s.pending_updates ∧
    (_record_status_history s oid f t c now).pending_system_messages
      = s.pending_system_messages ∧
    (_record_status_history s oid f t c now).pending_red_reminder_messages
      = s.pending_red_reminder_messages ∧
    (_record_status_history s oid f t c now).chat_order_map = s.chat_order_map := by
  unfold _record_status_history
  dsimp only
  repeat' split
  all_goals exact ⟨rfl, rfl, rfl, rfl⟩

/-- `update_order_status` never touches the notification queues or the
chat map, and it keeps the pending-update keys duplicate-free. -/
theorem update_preserves_fields
    (fGet : Nat → Except Unit (Option OrderRec)) (fUpsert : Nat → Except Unit Bool)
    (s : HandlerState) (order_id new_status cookie_id context : String) (now : Nat) :
    (update_order_status fGet fUpsert s order_id new_status cookie_id context now).state.pending_system_messages
      = s.pending_system_messages ∧
    (update_order_status fGet fUpsert s order_id new_status cookie_id context now).state.pending_red_reminder_messages
      = s.pending_red_reminder_messages ∧
    (update_order_status fGet fUpsert s order_id new_status cookie_id context now).state.chat_order_map
      = s.chat_order_map ∧
    ((s.pending_updates.map Prod.fst).Nodup →
      ((update_order_status fGet fUpsert s order_id new_status cookie_id context now).state.pending_updates.map
        Prod.fst).Nodup) := by
  have hadd : ∀ (oid st cid ctx : String),
      (_add_to_pending_updates s oid st cid ctx now).pending_system_messages
        = s.pending_system_messages ∧
      (_add_to_pending_updates s oid st cid ctx now).pending_red_reminder_messages
        = s.pending_red_reminder_messages ∧
      (_add_to_pending_updates s oid st cid ctx now).chat_order_map = s.chat_order_map ∧
      ((s.pending_updates.map Prod.fst).Nodup →
        ((_add_to_pending_updates s oid st cid ctx now).pending_updates.map Prod.fst).Nodup) :=
    fun oid st cid ctx => ⟨rfl, rfl, rfl, fun h => dictSet_nodup _ _ _ h⟩
  unfold update_order_status
  dsimp only
  repeat' split
  all_goals first
    | exact ⟨rfl, rfl, rfl, fun h => h⟩
    | exact hadd _ _ _ _
    | exact ⟨(record_history_fields _ _ _ _ _ _).2.1,
        (record_history_fields _ _ _ _ _ _).2.2.1,
        (record_history_fields _ _ _ _ _ _).2.2.2,
        fun h => by rw [(record_history_fields _ _ _ _ _ _).1]; exact h⟩

/-- A red-reminder drain with nothing queued for the account is inert. -/
theorem drainRed_empty
    (gets : Nat → Nat → Except Unit (Option OrderRec)) (ups : Nat → Nat → Except Unit Bool)
    (sA : HandlerState) (order_id cookie_id : String) (message : Option PyVal) (now : Nat)
    (h : dictLookup sA.pending_red_reminder_messages cookie_id = none) :
    drainRedMessages gets ups sA order_id cookie_id message now = (sA, none) := by
  unfold drainRedMessages
  rw [h]
  rfl

/-- Full description of one system-queue drain with a provided message:
the drained entry is the newest hash match when one exists, else the
oldest queued entry; its buffered status is committed under the resolved
order id via `update_order_status`; the entry leaves the queue, and its
placeholder's pending-update entry is gone afterwards. -/
theorem drainSys_spec
    (gets : Nat → Nat → Except Unit (Option OrderRec)) (ups : Nat → Nat → Except Unit Bool)
    (s0 : HandlerState) (order_id cookie_id : String) (m : PyVal) (now : Nat)
    (q : List PendingSysMsg)
    (hq : dictLookup s0.pending_system_messages cookie_id = some q)
    (hne : q.isEmpty = false)
    (hnds : (s0.pending_system_messages.map Prod.fst).Nodup)
    (hndp : (s0.pending_updates.map Prod.fst).Nodup) :
    ∃ i pm,
      i < q.length ∧ q.get? i = some pm ∧
      ((∃ j y, q.get? j = some y ∧ y.message_hash = messageHash m) →
        pm.message_hash = messageHash m ∧
        ∀ j y, i < j → q.get? j = some y → ¬ y.message_hash = messageHash m) ∧
      ((∀ j y, q.get? j = some y → ¬ y.message_hash = messageHash m) → i = 0) ∧
      (drainSysMessages gets ups s0 order_id cookie_id (some m) now).2 =
        some (pm, update_order_status (gets 0) (ups 0)
          { s0 with pending_system_messages :=
              dictSet s0.pending_system_messages cookie_id (q.eraseIdx i) }
          order_id pm.new_status cookie_id
          (pm.send_message ++ " - " ++ pm.msg_time ++ " - 延迟处理") now) ∧
      dictLookup (drainSysMessages gets ups s0 order_id cookie_id (some m) now).1.pending_updates
        pm.temp_order_id = none ∧
      dictLookup (drainSysMessages gets ups s0 order_id cookie_id (some m) now).1.pending_system_messages
        cookie_id = (if (q.eraseIdx i).isEmpty then none else some (q.eraseIdx i)) ∧
      (drainSysMessages gets ups s0 order_id cookie_id (some m) now).1.pending_red_reminder_messages
        = s0.pending_red_reminder_messages := by
  have hup := fun (q2 : List PendingSysMsg) (pm : PendingSysMsg) =>
    update_preserves_fields (gets 0) (ups 0)
      { s0 with pending_system_messages := dictSet s0.pending_system_messages cookie_id q2 }
      order_id pm.new_status cookie_id
      (pm.send_message ++ " - " ++ pm.msg_time ++ " - 延迟处理") now
  unfold drainSysMessages
  rw [hq]
  simp only [Option.getD_some]
  simp only [hne, Bool.false_eq_true, if_false]
  cases hidx : findHashFrom (fun e => e.message_hash) q (messageHash m) q.length with
  | some i =>
    obtain ⟨hlt, ⟨pm, hpm, hhash⟩, hmax⟩ :=
      findHashFrom_some (fun e => e.message_hash) q (messageHash m) q.length i hidx
    dsimp only
    rw [hpm]
    dsimp only
    refine ⟨i, pm, hlt, hpm, ?_, ?_, rfl, ?_, ?_, ?_⟩
    · intro _
      refine ⟨hhash, ?_⟩
      intro j y hij hjy hcon
      have hjlen : j < q.length := by
        rcases List.get?_eq_some.mp hjy with ⟨hh, _⟩
        exact hh
      exact hmax j hij hjlen y hjy hcon
    · intro hnone
      exact absurd hhash (hnone i pm hpm)
    · have hnd2 : (((update_order_status (gets 0) (ups 0)
          { s0 with pending_system_messages :=
              dictSet s0.pending_system_messages cookie_id (q.eraseIdx i) }
          order_id pm.new_status cookie_id
          (pm.send_message ++ " - " ++ pm.msg_time ++ " - 延迟处理") now).state.pending_updates).map
            Prod.fst).Nodup := (hup (q.eraseIdx i) pm).2.2.2 hndp
      split
      · split
        · exact dictLookup_dictPop_self _ _ hnd2
        · next hns => exact Option.not_isSome_iff_eq_none.mp hns
      · split
        · exact dictLookup_dictPop_self _ _ hnd2
        · next hns => exact Option.not_isSome_iff_eq_none.mp hns
    · have hpsm : (update_order_status (gets 0) (ups 0)
          { s0 with pending_system_messages :=
              dictSet s0.pending_system_messages cookie_id (q.eraseIdx i) }
          order_id pm.new_status cookie_id
          (pm.send_message ++ " - " ++ pm.msg_time ++ " - 延迟处理") now).state.pending_system_messages
          = dictSet s0.pending_system_messages cookie_id (q.eraseIdx i) :=
        (hup (q.eraseIdx i) pm).1
      split
      · split
        · rw [hpsm]
          exact dictLookup_dictPop_self _ _ (dictSet_nodup _ _ _ hnds)
        · rw [hpsm]
          exact dictLookup_dictPop_self _ _ (dictSet_nodup _ _ _ hnds)
      · split
        · rw [hpsm]
          exact dictLookup_dictSet_self _ _ _
        · rw [hpsm]
          exact dictLookup_dictSet_self _ _ _
    · have hprm : (update_order_status (gets 0) (ups 0)
          { s0 with pending_system_messages :=
              dictSet s0.pending_system_messages cookie_id (q.eraseIdx i) }
          order_id pm.new_status cookie_id
          (pm.send_message ++ " - " ++ pm.msg_time ++ " - 延迟处理") now).state.pending_red_reminder_messages
          = s0.pending_red_reminder_messages := (hup (q.eraseIdx i) pm).2.1
      split <;> split <;> exact hprm
  | none =>
    have hnomatch := findHashFrom_none (fun e => e.message_hash) q (messageHash m) q.length hidx
    cases q with
    | nil => exact absurd hne (by decide)
    | cons a t =>
      simp only [List.head?_cons, List.tail_cons]
      refine ⟨0, a, Nat.succ_pos _, rfl, ?_, ?_, ?_, ?_, ?_, ?_⟩
      · rintro ⟨j, y, hjy, hcon⟩
        have hjlen : j < (a :: t).length := by
          rcases List.get?_eq_some.mp hjy with ⟨hh, _⟩
          exact hh
        exact absurd hcon (hnomatch j hjlen y hjy)
      · intro _
        rfl
      · simp only [List.eraseIdx_cons_zero]
      · have hnd2 : (((update_order_status (gets 0) (ups 0)
            { s0 with pending_system_messages := dictSet s0.pending_system_messages cookie_id t }
            order_id a.new_status cookie_id
            (a.send_message ++ " - " ++ a.msg_time ++ " - 延迟处理") now).state.pending_updates).map
              Prod.fst).Nodup := (hup t a).2.2.2 hndp
        split <;> split <;>
          first
            | exact dictLookup_dictPop_self _ _ hnd2
            | (rename_i hns; exact Option.not_isSome_iff_eq_none.mp hns)
      · simp only [List.eraseIdx_cons_zero]
        have hpsm : (update_order_status (gets 0) (ups 0)
            { s0 with pending_system_messages := dictSet s0.pending_system_messages cookie_id t }
            order_id a.new_status cookie_id
            (a.send_message ++ " - " ++ a.msg_time ++ " - 延迟处理") now).state.pending_system_messages
            = dictSet s0.pending_system_messages cookie_id t := (hup t a).1
        split <;> split <;> rw [hpsm] <;>
          first
            | exact dictLookup_dictPop_self _ _ (dictSet_nodup _ _ _ hnds)
            | exact dictLookup_dictSet_self _ _ _
      · have hprm : (update_order_status (gets 0) (ups 0)
            { s0 with pending_system_messages := dictSet s0.pending_system_messages cookie_id t }
            order_id a.new_status cookie_id
            (a.send_message ++ " - " ++ a.msg_time ++ " - 延迟处理") now).state.pending_red_reminder_messages
            = s0.pending_red_reminder_messages := (hup t a).2.1
        split <;> split <;> exact hprm

/-- C7.  When `on_order_id_extracted` fires with a message for an account
whose pending-notification queue `q` is non-empty (and whose red-reminder
queue is empty), exactly one entry is drained: the newest entry whose
structural hash equals the provided message's hash when any match exists,
else the oldest entry (strict FIFO); its buffered status is committed
under the resolved order id via `update_order_status`; the entry leaves
the queue and the placeholder's pending-update entry is discarded — so a
deferred notification is committed at most once. -/
theorem on_order_id_extracted_drains_once
    (gets : Nat → Nat → Except Unit (Option OrderRec)) (ups : Nat → Nat → Except Unit Bool)
    (s : HandlerState) (order_id cookie_id : String) (m : PyVal) (now : Nat)
    (q : List PendingSysMsg)
    (hq : dictLookup s.pending_system_messages cookie_id = some q)
    (hne : q.isEmpty = false)
    (hnds : (s.pending_system_messages.map Prod.fst).Nodup)
    (hndp : (s.pending_updates.map Prod.fst).Nodup)
    (hred : dictLookup s.pending_red_reminder_messages cookie_id = none) :
    ∃ i pm,
      i < q.length ∧ q.get? i = some pm ∧
      ((∃ j y, q.get? j = some y ∧ y.message_hash = messageHash m) →
        pm.message_hash = messageHash m ∧
        ∀ j y, i < j → q.get? j = some y → ¬ y.message_hash = messageHash m) ∧
      ((∀ j y, q.get? j = some y → ¬ y.message_hash = messageHash m) → i = 0) ∧
      (on_order_id_extracted gets ups s order_id cookie_id (some m) now).sysRes =
        some (pm, update_order_status (gets 0) (ups 0)
          { _store_chat_order_mapping s order_id cookie_id m now with
              pending_system_messages :=
                dictSet (_store_chat_order_mapping s order_id cookie_id m now).pending_system_messages
                  cookie_id (q.eraseIdx i) }
          order_id pm.new_status cookie_id
          (pm.send_message ++ " - " ++ pm.msg_time ++ " - 延迟处理") now) ∧
      dictLookup (on_order_id_extracted gets ups s order_id cookie_id (some m) now).state.pending_updates
        pm.temp_order_id = none ∧
      dictLookup (on_order_id_extracted gets ups s order_id cookie_id (some m) now).state.pending_system_messages
        cookie_id = (if (q.eraseIdx i).isEmpty then none else some (q.eraseIdx i)) ∧
      (on_order_id_extracted gets ups s order_id cookie_id (some m) now).redRes = none := by
  have hs0 := store_chat_fields s order_id cookie_id m now
  have hq0 : dictLookup (_store_chat_order_mapping s order_id cookie_id m now).pending_system_messages cookie_id = some q := by
    rw [hs0.2.1]
    exact hq
  have hnds0 : ((_store_chat_order_mapping s order_id cookie_id m now).pending_system_messages.map Prod.fst).Nodup := by
    rw [hs0.2.1]
    exact hnds
  have hndp0 : ((_store_chat_order_mapping s order_id cookie_id m now).pending_updates.map Prod.fst).Nodup := by
    rw [hs0.1]
    exact hndp
  obtain ⟨i, pm, hlt, hpm, hhc, hfifo, hres, htemp, hpsm, hprm⟩ :=
    drainSys_spec gets ups (_store_chat_order_mapping s order_id cookie_id m now)
      order_id cookie_id m now q hq0 hne hnds0 hndp0
  have hredA : dictLookup (drainSysMessages gets ups
      (_store_chat_order_mapping s order_id cookie_id m now)
      order_id cookie_id (some m) now).1.pending_red_reminder_messages cookie_id = none := by
    rw [hprm, hs0.2.2.1]
    exact hred
  have hdr := drainRed_empty gets ups
    (drainSysMessages gets ups (_store_chat_order_mapping s order_id cookie_id m now)
      order_id cookie_id (some m) now).1
    order_id cookie_id (some m) now hredA
  have hsys : (on_order_id_extracted gets ups s order_id cookie_id (some m) now).sysRes =
      (drainSysMessages gets ups (_store_chat_order_mapping s order_id cookie_id m now)
        order_id cookie_id (some m) now).2 := rfl
  have hstate : (on_order_id_extracted gets ups s order_id cookie_id (some m) now).state =
      (drainSysMessages gets ups (_store_chat_order_mapping s order_id cookie_id m now)
        order_id cookie_id (some m) now).1 := by
    have h1 : (on_order_id_extracted gets ups s order_id cookie_id (some m) now).state =
        (drainRedMessages gets ups
          (drainSysMessages gets ups (_store_chat_order_mapping s order_id cookie_id m now)
            order_id cookie_id (some m) now).1
          order_id cookie_id (some m) now).1 := rfl
    rw [h1, hdr]
  have hrr : (on_order_id_extracted gets ups s order_id cookie_id (some m) now).redRes =
      (drainRedMessages gets ups
        (drainSysMessages gets ups (_store_chat_order_mapping s order_id cookie_id m now)
          order_id cookie_id (some m) now).1
        order_id cookie_id (some m) now).2 := rfl
  refine ⟨i, pm, hlt, hpm, hhc, hfifo, ?_, ?_, ?_, ?_⟩
  · rw [hsys]
    exact hres
  · rw [hstate]
    exact htemp
  · rw [hstate]
    exact hpsm
  · rw [hrr, hdr]

def wMsg : PyVal := .pdict [("k", .pstr "w")]

def wPm : PendingSysMsg :=
  ⟨wMsg, "sm", "acc", "tm", "cancelled", "temp_1", messageHash wMsg, 0⟩

def wState : HandlerState :=
  { initState with
    pending_updates := [("temp_1", [⟨"cancelled", "acc", "ctx", 0⟩])],
    pending_system_messages := [("acc", [wPm])] }

def wGets : Nat → Nat → Except Unit (Option OrderRec) :=
  fun _ _ => .ok (some ⟨some "pending_ship", "c"⟩)

def wUps : Nat → Nat → Except Unit Bool := fun _ _ => .ok true

theorem on_order_id_extracted_drains_once_witness :
    ∃ i pm,
      i < [wPm].length ∧ [wPm].get? i = some pm ∧
      ((∃ j y, [wPm].get? j = some y ∧ y.message_hash = messageHash wMsg) →
        pm.message_hash = messageHash wMsg ∧
        ∀ j y, i < j → [wPm].get? j = some y → ¬ y.message_hash = messageHash wMsg) ∧
      ((∀ j y, [wPm].get? j = some y → ¬ y.message_hash = messageHash wMsg) → i = 0) ∧
      (on_order_id_extracted wGets wUps wState "1234567890" "acc" (some wMsg) 0).sysRes =
        some (pm, update_order_status (wGets 0) (wUps 0)
          { _store_chat_order_mapping wState "1234567890" "acc" wMsg 0 with
              pending_system_messages :=
                dictSet (_store_chat_order_mapping wState "1234567890" "acc" wMsg 0).pending_system_messages
                  "acc" ([wPm].eraseIdx i) }
          "1234567890" pm.new_status "acc"
          (pm.send_message ++ " - " ++ pm.msg_time ++ " - 延迟处理") 0) ∧
      dictLookup (on_order_id_extracted wGets wUps wState "1234567890" "acc" (some wMsg) 0).state.pending_updates
        pm.temp_order_id = none ∧
      dictLookup (on_order_id_extracted wGets wUps wState "1234567890" "acc" (some wMsg) 0).state.pending_system_messages
        "acc" = (if ([wPm].eraseIdx i).isEmpty then none else some ([wPm].eraseIdx i)) ∧
      (on_order_id_extracted wGets wUps wState "1234567890" "acc" (some wMsg) 0).redRes = none :=
  on_order_id_extracted_drains_once wGets wUps wState "1234567890" "acc" wMsg 0 [wPm]
    (by rfl) (by rfl) (by decide) (by decide) (by rfl)

end XianyuOrder

